import Mathlib

/-!
# The database layer of the server: batched inserts, transactions, escaping, cursors

A shallow embedding of `database.h`, `database.cpp`, `databasesqlite.cpp` and
`databaseodbc.cpp`.

* A `std::string` is a list of `char` values (`Str`); one list element is one
  byte, so `List.length` is `std::string::length`.
* `Database::executeQuery` is pure virtual in `database.h`: the connection is
  modelled by the flag the driver answers for a statement (which may depend on
  everything issued before) together with the log of the statements issued.
* `size_t length` of `DBInsert` is a natural number: it never exceeds the sum
  of the sizes of `query`, `values` and the row being added, three strings that
  are in memory together, so it cannot wrap.
-/

namespace TFS

/-- A `std::string`: its bytes in order. -/
abbrev Str := List Char

/-- The single quote, byte 39. -/
def chQuote : Char := Char.ofNat 39

/-- The backslash, byte 92. -/
def chBackslash : Char := Char.ofNat 92

/-- The NUL byte. -/
def chNul : Char := Char.ofNat 0

/-- Carriage return, byte 13. -/
def chCR : Char := Char.ofNat 13

/-- Line feed, byte 10. -/
def chLF : Char := Char.ofNat 10

/-! ## `Database` (database.h, database.cpp) -/

/-- The connection seen through the `Database` interface: `maxPacketSize`, the
driver's answer to a statement given the statements issued so far, and the log
of `executeQuery` calls (text and returned flag), oldest first. -/
structure Database where
  maxPacketSize : Nat
  answer : List (Str × Bool) → Str → Bool
  issued : List (Str × Bool)

/-- A connection on which nothing has been issued yet. -/
def Database.fresh (maxPacketSize : Nat) (answer : List (Str × Bool) → Str → Bool) : Database :=
  { maxPacketSize := maxPacketSize, answer := answer, issued := [] }

/-- The `uint64_t maxPacketSize = 1048576` initialiser of `database.h`. -/
def defaultMaxPacketSize : Nat := 1048576

/-- Embeds `Database::getMaxPacketSize`. -/
def Database.getMaxPacketSize (db : Database) : Nat := db.maxPacketSize

/-- Embeds `Database::executeQuery`: the statement reaches the driver, the flag it
answers is returned and the call is logged. -/
def Database.executeQuery (db : Database) (query : Str) : Database × Bool :=
  ({ db with issued := db.issued ++ [(query, db.answer db.issued query)] },
    db.answer db.issued query)

/-- The texts passed to `executeQuery`, oldest first. -/
def Database.texts (db : Database) : List Str := db.issued.map Prod.fst

/-- The text `BEGIN`. -/
def sqlBEGIN : Str := ['B', 'E', 'G', 'I', 'N']

/-- The text `ROLLBACK`. -/
def sqlROLLBACK : Str := ['R', 'O', 'L', 'L', 'B', 'A', 'C', 'K']

/-- The text `COMMIT`. -/
def sqlCOMMIT : Str := ['C', 'O', 'M', 'M', 'I', 'T']

/-- Embeds `Database::beginTransaction`. -/
def Database.beginTransaction (db : Database) : Database × Bool := db.executeQuery sqlBEGIN

/-- Embeds `Database::rollback`. -/
def Database.rollback (db : Database) : Database × Bool := db.executeQuery sqlROLLBACK

/-- Embeds `Database::commit`. -/
def Database.commit (db : Database) : Database × Bool := db.executeQuery sqlCOMMIT

/-! ## `DBInsert` (database.cpp) -/

/-- The fields of `DBInsert`. -/
structure DBInsert where
  query : Str
  values : Str
  length : Nat

/-- Embeds `DBInsert::DBInsert(std::string query)`. -/
def DBInsert.new (query : Str) : DBInsert :=
  { query := query, values := [], length := query.length }

/-- Embeds `DBInsert::execute`. -/
def DBInsert.execute (db : Database) (ins : DBInsert) : Database × DBInsert × Bool :=
  if ins.values.isEmpty then
    (db, ins, true)
  else
    ((db.executeQuery (ins.query ++ ins.values)).1,
      { ins with values := [], length := ins.query.length },
      (db.executeQuery (ins.query ++ ins.values)).2)

/-- The tail of `DBInsert::addRow`: the row is appended to `values` in
parentheses, after a comma when `values` is not empty. -/
def DBInsert.pushRow (ins : DBInsert) (row : Str) : DBInsert :=
  if ins.values.isEmpty then
    { ins with values := ins.values ++ ['('] ++ row ++ [')'] }
  else
    { ins with values := ins.values ++ [','] ++ ['('] ++ row ++ [')'] }

/-- Embeds `DBInsert::addRow(const std::string&)`: `length += rowLength`, then
`execute()` is called only when `length` is above the packet size (the `&&`
short-circuits) and a failed flush returns false before the row is appended. -/
def DBInsert.addRow (db : Database) (ins : DBInsert) (row : Str) : Database × DBInsert × Bool :=
  if ins.length + row.length > db.getMaxPacketSize then
    if (DBInsert.execute db { ins with length := ins.length + row.length }).2.2 then
      ((DBInsert.execute db { ins with length := ins.length + row.length }).1,
        (DBInsert.execute db { ins with length := ins.length + row.length }).2.1.pushRow row,
        true)
    else
      ((DBInsert.execute db { ins with length := ins.length + row.length }).1,
        (DBInsert.execute db { ins with length := ins.length + row.length }).2.1,
        false)
  else
    (db, ({ ins with length := ins.length + row.length } : DBInsert).pushRow row, true)

/-- The calls `addRow(r1), ..., addRow(rn)` in order, whatever each returns;
the returned flags are collected. -/
def DBInsert.addRows (db : Database) (ins : DBInsert) : List Str → Database × DBInsert × List Bool
  | [] => (db, ins, [])
  | row :: rest =>
    ((DBInsert.addRows (DBInsert.addRow db ins row).1 (DBInsert.addRow db ins row).2.1 rest).1,
      (DBInsert.addRows (DBInsert.addRow db ins row).1 (DBInsert.addRow db ins row).2.1 rest).2.1,
      (DBInsert.addRow db ins row).2.2 ::
        (DBInsert.addRows (DBInsert.addRow db ins row).1 (DBInsert.addRow db ins row).2.1 rest).2.2)

/-- A bulk load: a new `DBInsert` on `query`, `addRow` for every row, then
`execute()`. Returns the connection afterwards. -/
def DBInsert.bulk (db : Database) (query : Str) (rows : List Str) : Database :=
  (DBInsert.execute (DBInsert.addRows db (DBInsert.new query) rows).1
    (DBInsert.addRows db (DBInsert.new query) rows).2.1).1

/-- One row literal in parentheses. -/
def rowText (row : Str) : Str := ['('] ++ row ++ [')']

/-- The text `(a1),(a2),...,(am)` of a block of rows. -/
def valuesText : List Str → Str
  | [] => []
  | [row] => rowText row
  | row :: next :: rest => rowText row ++ [','] ++ valuesText (next :: rest)

/-- The statement `query(a1),(a2),...,(am)` for a block of rows. -/
def statementText (query : Str) (rows : List Str) : Str := query ++ valuesText rows

/-- The driver that accepts every statement. -/
def alwaysOk : List (Str × Bool) → Str → Bool := fun _ _ => true

/-- The statement head used in the examples: `INSERT INTO t VALUES `. -/
def insertHead : Str :=
  ['I', 'N', 'S', 'E', 'R', 'T', ' ', 'I', 'N', 'T', 'O', ' ', 't', ' ',
   'V', 'A', 'L', 'U', 'E', 'S', ' ']

/-- The string of `n` bytes `c`. -/
def repeatByte (n : Nat) (c : Char) : Str := List.replicate n c

/-- What holds between two calls of a bulk load whose statements all
succeeded: the statements issued are whole blocks of rows, and the buffer is
the text of the rows that came after them. -/
def Batched (query : Str) (done : List Str) (db : Database) (ins : DBInsert) : Prop :=
  ∃ (blocks : List (List Str)) (buf : List Str),
    (∀ b ∈ blocks, b ≠ []) ∧ blocks.flatten ++ buf = done ∧
    db.texts = blocks.map (statementText query) ∧
    ins.values = valuesText buf ∧ ins.query = query

/-- The driver that rejects every statement. -/
def alwaysFails : List (Str × Bool) → Str → Bool := fun _ _ => false

/-- A `DBInsert` holding one buffered row `(1,2)`. -/
def oneRowBuffered : DBInsert :=
  { query := insertHead, values := ['(', '1', ',', '2', ')'], length := insertHead.length + 3 }

/-! ## `DatabaseODBC::escapeString`, `DatabaseODBC::escapeBlob` (databaseodbc.cpp) -/

/-- The `switch (s[i])` of `DatabaseODBC::escapeBlob`: what one byte appends
to `buf`. -/
def DatabaseODBC.escapeByte (c : Char) : Str :=
  if c = chQuote then [chQuote, chQuote]
  else if c = chNul then [chBackslash, '0']
  else if c = chBackslash then [chBackslash, chBackslash]
  else if c = chCR then [chBackslash, 'r']
  else if c = chLF then [chBackslash, 'n']
  else [c]

/-- The `for` loop of `DatabaseODBC::escapeBlob`: `s` is what is left of the
bytes at the pointer and the number is how many iterations remain. -/
def DatabaseODBC.escapeLoop : Str → Nat → Str → Str
  | _, 0, buf => buf
  | [], _ + 1, buf => buf
  | c :: rest, n + 1, buf => DatabaseODBC.escapeLoop rest n (buf ++ DatabaseODBC.escapeByte c)

/-- Embeds `DatabaseODBC::escapeBlob(const char* s, uint32_t length)`. -/
def DatabaseODBC.escapeBlob (s : Str) (length : Nat) : Str :=
  DatabaseODBC.escapeLoop s length [chQuote] ++ [chQuote]

/-- Embeds `DatabaseODBC::escapeString`: `escapeBlob(s.c_str(), s.length())`, the
`size_t` length narrowed to the `uint32_t` parameter. -/
def DatabaseODBC.escapeString (s : Str) : Str :=
  DatabaseODBC.escapeBlob s (s.length % 2 ^ 32)

/-- The five replacements named by the escaping grammar: quote, NUL,
backslash, CR, LF. -/
def odbcReplacements : List (Char × Str) :=
  [(chQuote, [chQuote, chQuote]), (chNul, [chBackslash, '0']),
   (chBackslash, [chBackslash, chBackslash]), (chCR, [chBackslash, 'r']),
   (chLF, [chBackslash, 'n'])]

/-- The literal the grammar prescribes for `s`: `s` in single quotes, the five
bytes replaced, every other byte copied. -/
def odbcLiteral (s : Str) : Str :=
  [chQuote] ++ s.flatMap (fun c => (odbcReplacements.lookup c).getD [c]) ++ [chQuote]

/-- Reverses the five two-character sequences, left to right. -/
def odbcUnescape : Str → Str
  | [] => []
  | [c] => [c]
  | a :: b :: rest =>
    if a = chQuote ∧ b = chQuote then chQuote :: odbcUnescape rest
    else if a = chBackslash ∧ b = '0' then chNul :: odbcUnescape rest
    else if a = chBackslash ∧ b = chBackslash then chBackslash :: odbcUnescape rest
    else if a = chBackslash ∧ b = 'r' then chCR :: odbcUnescape rest
    else if a = chBackslash ∧ b = 'n' then chLF :: odbcUnescape rest
    else a :: odbcUnescape (b :: rest)

/-- The decoder of the ODBC literal: the outer quotes are stripped and the
body unescaped; a text without the outer quotes is not a literal. -/
def odbcDecode (t : Str) : Option Str :=
  match t with
  | [] => none
  | a :: rest =>
    if a = chQuote ∧ rest.getLast? = some chQuote then some (odbcUnescape rest.dropLast)
    else none

/-! ## `DatabaseSQLite::escapeString` (databasesqlite.cpp) -/

/-- What a C function reads from `s.c_str()`: the bytes before the first NUL. -/
def cstr (s : Str) : Str := s.takeWhile (fun c => c != chNul)

/-- The text `%Q` of sqlite3 produces for a C string: the string in single
quotes, every single quote doubled. -/
def sqliteQ (z : Str) : Str :=
  [chQuote] ++ z.flatMap (fun c => if c = chQuote then [chQuote, chQuote] else [c]) ++ [chQuote]

/-- The conversion of an unsigned value to the 32-bit `int` parameter of
`sqlite3_snprintf`. -/
def toInt32 (n : Nat) : Int :=
  if n % 2 ^ 32 < 2 ^ 31 then ((n % 2 ^ 32 : Nat) : Int) else ((n % 2 ^ 32 : Nat) : Int) - 2 ^ 32

/-- The call `sqlite3_snprintf(n, buf, "%Q", z)` of the sqlite3 library: at
most `n - 1` bytes of the quoted text are written, followed by a NUL; for
`n <= 0` nothing is written and the buffer has no defined content. -/
def sqlite3_snprintf (n : Int) (z : Str) : Option Str :=
  if n ≤ 0 then none else some ((sqliteQ z).take (n - 1).toNat)

/-- The call `std::regex_replace(r, std::regex(c), fmt)` for a one-character
pattern without special meaning: every `c` becomes `fmt`. -/
def regex_replace (r : Str) (c : Char) (fmt : Str) : Str :=
  r.flatMap (fun x => if x = c then fmt else [x])

/-- Embeds `DatabaseSQLite::escapeString`. The size passed to `sqlite3_snprintf` is
`s.length() * 2 + 1`, computed in `size_t`; `none` stands for the reads that
have no defined result (an unwritten buffer, `r[r.length() - 1]` on an empty
`r`). -/
def DatabaseSQLite.escapeString (s : Str) : Option Str :=
  if s.length = 0 then
    some [chQuote, chQuote]
  else
    match sqlite3_snprintf (toInt32 ((s.length * 2 + 1) % 2 ^ 64)) (cstr s) with
    | none => none
    | some output =>
      match (regex_replace (regex_replace output '%' [chBackslash, '%'])
          '_' [chBackslash, '_']).getLast? with
      | none => none
      | some last =>
        if last ≠ chQuote then
          some (regex_replace (regex_replace output '%' [chBackslash, '%'])
            '_' [chBackslash, '_'] ++ [chQuote])
        else
          some (regex_replace (regex_replace output '%' [chBackslash, '%'])
            '_' [chBackslash, '_'])

/-- What the SQLite grammar puts for one byte of the value: a single quote is
doubled, `%` and `_` get a backslash in front, any other byte stands for
itself. -/
def sqliteLiteralByte (c : Char) : Str :=
  if c = chQuote then [chQuote, chQuote]
  else if c = '%' then [chBackslash, '%']
  else if c = '_' then [chBackslash, '_']
  else [c]

/-- The literal the SQLite grammar prescribes for `s`: an opening single
quote, every single quote of `s` doubled, a backslash before each `%` and `_`,
a closing single quote. -/
def sqliteLiteral (s : Str) : Str :=
  [chQuote] ++ s.flatMap sqliteLiteralByte ++ [chQuote]

/-- Undoes the body of a SQLite literal, left to right: a doubled quote is one
quote, a backslash before `%` or `_` is dropped, a single quote on its own is
malformed. -/
def sqliteUnescape : Str → Option Str
  | [] => some []
  | [c] => if c = chQuote then none else some [c]
  | a :: b :: rest =>
    if a = chQuote then
      if b = chQuote then (sqliteUnescape rest).map (fun r => chQuote :: r) else none
    else if a = chBackslash ∧ (b = '%' ∨ b = '_') then
      (sqliteUnescape rest).map (fun r => b :: r)
    else (sqliteUnescape (b :: rest)).map (fun r => a :: r)

/-- The decoder of the SQLite literal: the outer quotes are stripped and the
body undone. -/
def sqliteDecode (t : Str) : Option Str :=
  match t with
  | [] => none
  | a :: rest =>
    if a = chQuote ∧ rest.getLast? = some chQuote then sqliteUnescape rest.dropLast
    else none

/-! ## `DBTransaction` (database.h) -/

/-- The enumeration `TransactionStates_t`. -/
inductive TransactionStates_t where
  | STATE_NO_START
  | STATE_START
  | STATE_COMMIT
  deriving DecidableEq

/-- The integer value of an enumerator: the order NotStarted, Started,
Committed. -/
def TransactionStates_t.toNat : TransactionStates_t → Nat
  | .STATE_NO_START => 0
  | .STATE_START => 1
  | .STATE_COMMIT => 2

/-- The one field of `DBTransaction`. -/
structure DBTransaction where
  state : TransactionStates_t

/-- The default constructor: `state = STATE_NO_START`. -/
def DBTransaction.new : DBTransaction := { state := .STATE_NO_START }

/-- Embeds `DBTransaction::begin`. -/
def DBTransaction.begin (db : Database) (_t : DBTransaction) : Database × DBTransaction × Bool :=
  (db.beginTransaction.1, { state := .STATE_START }, db.beginTransaction.2)

/-- Embeds `DBTransaction::commit`. -/
def DBTransaction.commit (db : Database) (t : DBTransaction) : Database × DBTransaction × Bool :=
  if t.state ≠ .STATE_START then
    (db, t, false)
  else
    (db.commit.1, { state := .STATE_COMMIT }, db.commit.2)

/-- Embeds `DBTransaction::~DBTransaction`. -/
def DBTransaction.destroy (db : Database) (t : DBTransaction) : Database :=
  if t.state = .STATE_START then db.rollback.1 else db

/-- A call made on a `DBTransaction` by its owner. -/
inductive TxCall where
  | begin
  | commit
  deriving DecidableEq

/-- One call as it happened: the state before and after, and the flag
returned. -/
structure TxStep where
  call : TxCall
  before : TransactionStates_t
  after : TransactionStates_t
  returned : Bool
  deriving DecidableEq

/-- Dispatch of one call. -/
def DBTransaction.call (db : Database) (t : DBTransaction) : TxCall → Database × DBTransaction × Bool
  | .begin => t.begin db
  | .commit => t.commit db

/-- The calls in order on one `DBTransaction`; returns the connection, the
transaction and the record of every call. -/
def DBTransaction.run (db : Database) (t : DBTransaction) :
    List TxCall → Database × DBTransaction × List TxStep
  | [] => (db, t, [])
  | c :: rest =>
    ((DBTransaction.run (t.call db c).1 (t.call db c).2.1 rest).1,
      (DBTransaction.run (t.call db c).1 (t.call db c).2.1 rest).2.1,
      { call := c, before := t.state, after := (t.call db c).2.1.state,
        returned := (t.call db c).2.2 } ::
        (DBTransaction.run (t.call db c).1 (t.call db c).2.1 rest).2.2)

/-- A whole lifetime: construction, the calls, destruction. Returns the
connection afterwards and the record of the calls. -/
def DBTransaction.lifetime (db : Database) (calls : List TxCall) : Database × List TxStep :=
  (DBTransaction.destroy (DBTransaction.run db DBTransaction.new calls).1
      (DBTransaction.run db DBTransaction.new calls).2.1,
    (DBTransaction.run db DBTransaction.new calls).2.2)

/-- The states a `DBTransaction` goes through: the initial one, then the
state after each call. -/
def DBTransaction.trace (db : Database) (calls : List TxCall) : List TransactionStates_t :=
  TransactionStates_t.STATE_NO_START ::
    (DBTransaction.run db DBTransaction.new calls).2.2.map TxStep.after

/-- Some `commit()` call returned true. -/
def someCommitSucceeded (steps : List TxStep) : Prop :=
  ∃ st ∈ steps, st.call = TxCall.commit ∧ st.returned = true

/-! ## Cursors: `SQLiteDBResult`, `ODBCDBResult` and `storeQuery`

The native libraries are outside the repository. A prepared sqlite3 statement
is modelled by the return codes its successive `sqlite3_step` calls give; an
ODBC statement handle by the rows the driver holds for it. The column maps
(`listNames`, `m_listNames`) are left out: `hasNext`, `next` and `storeQuery`
do not read them. -/

/-- The sqlite3 result code `SQLITE_OK`. -/
def SQLITE_OK : Int := 0

/-- The sqlite3 result code `SQLITE_ROW`. -/
def SQLITE_ROW : Int := 100

/-- The sqlite3 result code `SQLITE_DONE`. -/
def SQLITE_DONE : Int := 101

/-- A prepared statement of sqlite3: `codes k` is what the `k`-th call of
`sqlite3_step` returns, `stepped` counts the calls made. -/
structure sqlite3_stmt where
  codes : Nat → Int
  stepped : Nat

/-- The library call `sqlite3_step`. -/
def sqlite3_step (stmt : sqlite3_stmt) : Int × sqlite3_stmt :=
  (stmt.codes stmt.stepped, { stmt with stepped := stmt.stepped + 1 })

/-- The connection handle of sqlite3: what `sqlite3_prepare_v2` returns for a
statement text. -/
structure sqlite3 where
  prepare_v2 : Str → Int × sqlite3_stmt

/-- The fields of `SQLiteDBResult` that the cursor protocol uses. -/
structure SQLiteDBResult where
  handle : sqlite3_stmt
  rowAvailable : Bool

/-- Embeds `SQLiteDBResult::hasNext`. -/
def SQLiteDBResult.hasNext (r : SQLiteDBResult) : Bool := r.rowAvailable

/-- Embeds `SQLiteDBResult::next`. -/
def SQLiteDBResult.next (r : SQLiteDBResult) : SQLiteDBResult × Bool :=
  ({ handle := (sqlite3_step r.handle).2,
     rowAvailable := decide ((sqlite3_step r.handle).1 = SQLITE_ROW) },
    decide ((sqlite3_step r.handle).1 = SQLITE_ROW))

/-- The fields of `DatabaseSQLite`. -/
structure DatabaseSQLite where
  handle : sqlite3
  m_connected : Bool

/-- Embeds `DatabaseSQLite::storeQuery`. A failed prepare is only logged; the step
that follows is made on whatever statement the library left. -/
def DatabaseSQLite.storeQuery (db : DatabaseSQLite) (query : Str) : Option SQLiteDBResult :=
  if (sqlite3_step (db.handle.prepare_v2 query).2).1 ≠ SQLITE_OK ∧
      (sqlite3_step (db.handle.prepare_v2 query).2).1 ≠ SQLITE_DONE ∧
      (sqlite3_step (db.handle.prepare_v2 query).2).1 ≠ SQLITE_ROW then
    none
  else if !(SQLiteDBResult.hasNext
      { handle := (sqlite3_step (db.handle.prepare_v2 query).2).2,
        rowAvailable := decide ((sqlite3_step (db.handle.prepare_v2 query).2).1 = SQLITE_ROW) })
  then
    none
  else
    some { handle := (sqlite3_step (db.handle.prepare_v2 query).2).2,
           rowAvailable := decide ((sqlite3_step (db.handle.prepare_v2 query).2).1 = SQLITE_ROW) }

/-- The ODBC return code `SQL_SUCCESS`. -/
def SQL_SUCCESS : Int := 0

/-- The ODBC return code `SQL_SUCCESS_WITH_INFO`. -/
def SQL_SUCCESS_WITH_INFO : Int := 1

/-- The macro `RETURN_SUCCESS(ret)` of databaseodbc.cpp. -/
def RETURN_SUCCESS (ret : Int) : Bool :=
  decide (ret = SQL_SUCCESS) || decide (ret = SQL_SUCCESS_WITH_INFO)

/-- An ODBC statement handle after `SQLExecDirect`: the rows of its result. -/
structure SQLHSTMT where
  rows : List (List Str)

/-- An ODBC connection handle: the return code of allocating a statement
handle on it, and what `SQLExecDirect` returns for a statement text. -/
structure SQLHDBC where
  allocStmt : Int
  execDirect : Str → Int × SQLHSTMT

/-- The fields of `ODBCDBResult` that the cursor protocol uses. -/
structure ODBCDBResult where
  m_handle : SQLHSTMT
  m_rowAvailable : Bool

/-- Embeds `ODBCDBResult::ODBCDBResult(SQLHSTMT stmt)`: `m_rowAvailable = false`, no
row is fetched. -/
def ODBCDBResult.new (stmt : SQLHSTMT) : ODBCDBResult :=
  { m_handle := stmt, m_rowAvailable := false }

/-- Embeds `ODBCDBResult::hasNext`. -/
def ODBCDBResult.hasNext (r : ODBCDBResult) : Bool := !r.m_rowAvailable

/-- Embeds `ODBCDBResult::next`: the object is not changed. -/
def ODBCDBResult.next (r : ODBCDBResult) : ODBCDBResult × Bool := (r, !r.m_rowAvailable)

/-- The flags returned by `n` successive calls of `next()`. -/
def ODBCDBResult.nexts (r : ODBCDBResult) : Nat → List Bool
  | 0 => []
  | n + 1 => r.next.2 :: ODBCDBResult.nexts r.next.1 n

/-- The fields of `DatabaseODBC` that `storeQuery` uses. -/
structure DatabaseODBC where
  m_connected : Bool
  m_handle : SQLHDBC

/-- The backquote, byte 96. -/
def chBackquote : Char := Char.ofNat 96

/-- Embeds `DatabaseODBC::storeQuery`: the backquotes are removed from the text
before it goes to `SQLExecDirect`. -/
def DatabaseODBC.storeQuery (db : DatabaseODBC) (query : Str) : Option ODBCDBResult :=
  if !db.m_connected then
    none
  else if !RETURN_SUCCESS db.m_handle.allocStmt then
    none
  else if !RETURN_SUCCESS (db.m_handle.execDirect (query.filter (fun c => c != chBackquote))).1 then
    none
  else if !(ODBCDBResult.new
      (db.m_handle.execDirect (query.filter (fun c => c != chBackquote))).2).hasNext then
    none
  else
    some (ODBCDBResult.new (db.m_handle.execDirect (query.filter (fun c => c != chBackquote))).2)

/-- A connected ODBC database whose driver executes every statement with
`SQL_SUCCESS` and an empty result. -/
def odbcNoRows : DatabaseODBC :=
  { m_connected := true,
    m_handle := { allocStmt := SQL_SUCCESS, execDirect := fun _ => (SQL_SUCCESS, { rows := [] }) } }

/-- The statement `SELECT 1 WHERE 0`. -/
def selectNothing : Str :=
  ['S', 'E', 'L', 'E', 'C', 'T', ' ', '1', ' ', 'W', 'H', 'E', 'R', 'E', ' ', '0']

/-! ## `DatabaseSQLite::escapeBlob` (databasesqlite.cpp) -/

/-- The conversion `(uint8_t)s[i]`: the value of the byte, 0 to 255. -/
def toUInt8 (c : Char) : Nat := c.toNat % 256

/-- The call `sprintf(hex, "%02x", v)` for an unsigned `v`: the digits of `v`
in base 16 with the letters in lower case, padded with `0` on the left to a
width of 2. -/
def sprintf_02x (v : Nat) : Str :=
  List.replicate (2 - (Nat.toDigits 16 v).length) '0' ++ Nat.toDigits 16 v

/-- The `for` loop of `DatabaseSQLite::escapeBlob`: `s` is what is left of the
bytes at the pointer and the number is how many iterations remain. -/
def DatabaseSQLite.escapeBlobLoop : Str → Nat → Str → Str
  | _, 0, buf => buf
  | [], _ + 1, buf => buf
  | c :: rest, n + 1, buf =>
    DatabaseSQLite.escapeBlobLoop rest n (buf ++ sprintf_02x (toUInt8 c))

/-- Embeds `DatabaseSQLite::escapeBlob(const char* s, uint32_t length)`. -/
def DatabaseSQLite.escapeBlob (s : Str) (length : Nat) : Str :=
  DatabaseSQLite.escapeBlobLoop s length ['x', chQuote] ++ [chQuote]

/-- The sixteen hexadecimal digits, letters in lower case. -/
def lowerHexDigits : Str := "0123456789abcdef".toList

/-- The two digits of a byte, high nibble first. -/
def hexPair (c : Char) : Str :=
  [lowerHexDigits.getD (c.toNat / 16) '0', lowerHexDigits.getD (c.toNat % 16) '0']

/-- The blob literal of the grammar: `x`, a single quote, two lower-case
hexadecimal digits for every byte, a single quote. -/
def blobLiteral (b : Str) : Str := ['x', chQuote] ++ b.flatMap hexPair ++ [chQuote]

/-- The value of a lower-case hexadecimal digit. -/
def hexValue (c : Char) : Option Nat :=
  if lowerHexDigits.indexOf c < 16 then some (lowerHexDigits.indexOf c) else none

/-- Reads pairs of hexadecimal digits back into bytes. -/
def hexDecode : Str → Option Str
  | [] => some []
  | [_] => none
  | hi :: lo :: rest =>
    match hexValue hi, hexValue lo, hexDecode rest with
    | some h, some l, some r => some (Char.ofNat (16 * h + l) :: r)
    | _, _, _ => none

/-- The decoder of the blob literal: `x` and the quotes are stripped and the
digits read back. -/
def blobDecode (t : Str) : Option Str :=
  match t with
  | a :: b :: rest =>
    if a = 'x' ∧ b = chQuote ∧ rest.getLast? = some chQuote then hexDecode rest.dropLast
    else none
  | _ => none

/-! ## `DBResult::getNumber` (database.h) -/

/-- An integer type `A` that `getNumber<A>` can be asked for: its width in
bits and whether it is signed. -/
structure IntType where
  bits : Nat
  isSigned : Bool
  deriving DecidableEq

/-- The type `uint8_t`. -/
def IntType.uint8 : IntType := { bits := 8, isSigned := false }

/-- The type `uint16_t`. -/
def IntType.uint16 : IntType := { bits := 16, isSigned := false }

/-- The type `uint32_t`. -/
def IntType.uint32 : IntType := { bits := 32, isSigned := false }

/-- The type `int32_t`. -/
def IntType.int32 : IntType := { bits := 32, isSigned := true }

/-- The type `uint64_t`. -/
def IntType.uint64 : IntType := { bits := 64, isSigned := false }

/-- The values the type can represent. -/
def IntType.represents (A : IntType) (v : Int) : Prop :=
  if A.isSigned then -(2 : Int) ^ (A.bits - 1) ≤ v ∧ v < (2 : Int) ^ (A.bits - 1)
  else 0 ≤ v ∧ v < (2 : Int) ^ A.bits

/-- The conversion `static_cast<A>(v)` of an integer `v`: the value of type
`A` congruent to `v` modulo `2 ^ bits`. It has no failing case. -/
def static_cast (A : IntType) (v : Int) : Int :=
  if A.isSigned then (v + (2 : Int) ^ (A.bits - 1)) % (2 : Int) ^ A.bits - (2 : Int) ^ (A.bits - 1)
  else v % (2 : Int) ^ A.bits

/-- The `try` block of `DBResult::getNumber`: the assignment
`data = static_cast<A>(getAnyNumber(s))`, which raises nothing. -/
def DBResult.getNumberTry (A : IntType) (anyNumber : Int) : Except Unit Int :=
  Except.ok (static_cast A anyNumber)

/-- Embeds `DBResult::getNumber<A>`, on the value `getAnyNumber(s)` returned for the
column: the converted value, or 0 from the `catch` clause. -/
def DBResult.getNumber (A : IntType) (anyNumber : Int) : Int :=
  match DBResult.getNumberTry A anyNumber with
  | Except.ok data => data
  | Except.error _ => 0

/-! ## Construction of the adapters and `Database::connect` -/

/-- Embeds `DatabaseSQLite::DatabaseSQLite`. The pair `opened` is what
`sqlite3_open` gives (result code and handle); `m_connected` has no
initialiser in `Database`, `before` is the value it holds on entry. The
failure branch sets `m_connected = false` and does not return; the statement
after the `if` sets it to true. -/
def DatabaseSQLite.new (before : Bool) (opened : Int × sqlite3) : DatabaseSQLite :=
  { (if opened.1 ≠ SQLITE_OK then
        ({ handle := opened.2, m_connected := false } : DatabaseSQLite)
      else
        ({ handle := opened.2, m_connected := before } : DatabaseSQLite)) with
    m_connected := true }

/-- Embeds `Database::connect` on the SQLite adapter. -/
def DatabaseSQLite.connect (db : DatabaseSQLite) : Bool := db.m_connected

/-- The sqlite3 result code `SQLITE_CANTOPEN`. -/
def SQLITE_CANTOPEN : Int := 14

/-- The sqlite3 result code `SQLITE_MISUSE`. -/
def SQLITE_MISUSE : Int := 21

/-- A handle that was not opened: every call on it is a misuse. -/
def sqlite3.unopened : sqlite3 :=
  { prepare_v2 := fun _ => (SQLITE_MISUSE, { codes := fun _ => SQLITE_MISUSE, stepped := 0 }) }

/-- The ODBC return code `SQL_ERROR`. -/
def SQL_ERROR : Int := -1

/-- The ODBC return code `SQL_INVALID_HANDLE`. -/
def SQL_INVALID_HANDLE : Int := -2

/-- The handle `NULL`: every call on it fails. -/
def SQLHDBC.null : SQLHDBC :=
  { allocStmt := SQL_INVALID_HANDLE, execDirect := fun _ => (SQL_INVALID_HANDLE, { rows := [] }) }

/-- What the ODBC driver manager answers to the five calls of the
constructor, in order, and the connection handle it hands out. -/
structure OdbcNative where
  allocEnv : Int
  setEnvAttr : Int
  allocDbc : Int
  setConnectAttr : Int
  sqlConnect : Int
  dbc : SQLHDBC

/-- Embeds `DatabaseODBC::DatabaseODBC`: `m_connected = false` first, a return
after each failed call, `m_connected = true` at the end. -/
def DatabaseODBC.new (native : OdbcNative) : DatabaseODBC :=
  if !RETURN_SUCCESS native.allocEnv then
    { m_connected := false, m_handle := SQLHDBC.null }
  else if !RETURN_SUCCESS native.setEnvAttr then
    { m_connected := false, m_handle := SQLHDBC.null }
  else if !RETURN_SUCCESS native.allocDbc then
    { m_connected := false, m_handle := SQLHDBC.null }
  else if !RETURN_SUCCESS native.setConnectAttr then
    { m_connected := false, m_handle := SQLHDBC.null }
  else if !RETURN_SUCCESS native.sqlConnect then
    { m_connected := false, m_handle := SQLHDBC.null }
  else
    { m_connected := true, m_handle := native.dbc }

/-- Embeds `Database::connect` on the ODBC adapter. -/
def DatabaseODBC.connect (db : DatabaseODBC) : Bool := db.m_connected

/-! ## Access to the native handle from several threads

An operation of an adapter is read as the steps it makes on the shared
connection: taking `databaseLock` (the constructor of the
`std::lock_guard<std::recursive_mutex>`), giving it back (its destructor at
the end of the scope), and the begin and end of each call into the native
library. Threads are numbered; a schedule is the order in which threads make
their next step. -/

/-- One step of a thread on the shared connection. -/
inductive LockStep where
  | acquire
  | release
  | nativeEnter
  | nativeLeave
  deriving DecidableEq

/-- One call into the native library: it begins and it returns. -/
def nativeCall : List LockStep := [LockStep.nativeEnter, LockStep.nativeLeave]

/-- The steps of `DatabaseSQLite::executeQuery` when prepare and step succeed:
the lock guard, then `sqlite3_prepare_v2`, `sqlite3_step`, `sqlite3_finalize`,
then the end of the scope. -/
def DatabaseSQLite.executeQuerySteps : List LockStep :=
  [LockStep.acquire] ++ nativeCall ++ nativeCall ++ nativeCall ++ [LockStep.release]

/-- The steps of `DatabaseSQLite::storeQuery` up to its return: the lock
guard, then `sqlite3_prepare_v2`, `sqlite3_step` and the
`sqlite3_column_count` of the result's constructor, then the end of the
scope. -/
def DatabaseSQLite.storeQuerySteps : List LockStep :=
  [LockStep.acquire] ++ nativeCall ++ nativeCall ++ nativeCall ++ [LockStep.release]

/-- The steps of `DatabaseODBC::executeQuery` on a connected database:
`SQLAllocHandle` and `SQLExecDirect`; the function has no lock guard. -/
def DatabaseODBC.executeQuerySteps : List LockStep := nativeCall ++ nativeCall

/-- The steps of `DatabaseODBC::storeQuery` on a connected database:
`SQLAllocHandle`, `SQLExecDirect` and the `SQLNumResultCols` of the result's
constructor; the function has no lock guard. -/
def DatabaseODBC.storeQuerySteps : List LockStep := nativeCall ++ nativeCall ++ nativeCall

/-- The state of a `std::recursive_mutex`: the owning thread and how many
times it holds the lock. -/
structure RecursiveMutex where
  owner : Option Nat
  depth : Nat

/-- A thread: the steps it still has to make and whether it is inside a call
into the native library. -/
structure ThreadState where
  todo : List LockStep
  inNative : Bool

/-- The connection shared by the threads. -/
structure Shared where
  databaseLock : RecursiveMutex
  threads : Nat → ThreadState

/-- Thread `t` moves on to `next`, the others stay. -/
def Shared.advance (s : Shared) (t : Nat) (lock : RecursiveMutex) (next : ThreadState) : Shared :=
  { databaseLock := lock, threads := fun u => if u = t then next else s.threads u }

/-- Thread `t` makes its next step if it can. `acquire` succeeds when the lock
is free or already held by `t` and otherwise blocks (nothing changes);
`release` gives back one hold. -/
def Shared.step (s : Shared) (t : Nat) : Shared :=
  match (s.threads t).todo with
  | [] => s
  | LockStep.acquire :: rest =>
    match s.databaseLock.owner with
    | none =>
      s.advance t { owner := some t, depth := 1 }
        { todo := rest, inNative := (s.threads t).inNative }
    | some o =>
      if o = t then
        s.advance t { owner := some t, depth := s.databaseLock.depth + 1 }
          { todo := rest, inNative := (s.threads t).inNative }
      else s
  | LockStep.release :: rest =>
    if s.databaseLock.owner = some t then
      if s.databaseLock.depth ≤ 1 then
        s.advance t { owner := none, depth := 0 }
          { todo := rest, inNative := (s.threads t).inNative }
      else
        s.advance t { owner := some t, depth := s.databaseLock.depth - 1 }
          { todo := rest, inNative := (s.threads t).inNative }
    else
      s.advance t s.databaseLock { todo := rest, inNative := (s.threads t).inNative }
  | LockStep.nativeEnter :: rest =>
    s.advance t s.databaseLock { todo := rest, inNative := true }
  | LockStep.nativeLeave :: rest =>
    s.advance t s.databaseLock { todo := rest, inNative := false }

/-- The threads make their steps in the order of the schedule. -/
def Shared.run (s : Shared) : List Nat → Shared
  | [] => s
  | t :: rest => Shared.run (s.step t) rest

/-- The start: the lock is free, thread `t` has the steps `programs t` to make
and no thread is inside a native call. -/
def Shared.start (programs : Nat → List LockStep) : Shared :=
  { databaseLock := { owner := none, depth := 0 },
    threads := fun t => { todo := programs t, inNative := false } }

/-- Two different threads are inside native calls at the same time. -/
def Shared.overlap (s : Shared) : Prop :=
  ∃ t u, t ≠ u ∧ (s.threads t).inNative = true ∧ (s.threads u).inNative = true

/-- How many times thread `t` holds the lock. -/
def Shared.held (s : Shared) (t : Nat) : Nat :=
  if s.databaseLock.owner = some t then s.databaseLock.depth else 0

/-- A thread that holds the lock `d` times and is (or is not) inside a native
call keeps every native call of the steps `p` inside the lock: it enters a
native call only while holding the lock and does not give back its last hold
before the call has returned. -/
def lockGuarded : Nat → Bool → List LockStep → Prop
  | _, _, [] => True
  | d, i, LockStep.acquire :: p => lockGuarded (d + 1) i p
  | d, i, LockStep.release :: p => 0 < d ∧ (i = true → 1 < d) ∧ lockGuarded (d - 1) i p
  | d, _, LockStep.nativeEnter :: p => 0 < d ∧ lockGuarded d true p
  | d, _, LockStep.nativeLeave :: p => lockGuarded d false p

/-- Two threads, 0 and 1, each calling `DatabaseODBC::executeQuery`. -/
def twoOdbcQueries : Nat → List LockStep :=
  fun t => if t < 2 then DatabaseODBC.executeQuerySteps else []

/-- Thread 0 takes `databaseLock` itself, calls `DatabaseSQLite::executeQuery`
and gives the lock back. -/
def nestedSqliteQuery : Nat → List LockStep :=
  fun t =>
    if t = 0 then [LockStep.acquire] ++ DatabaseSQLite.executeQuerySteps ++ [LockStep.release]
    else []

/-- What the lock discipline maintains: every thread keeps its native calls
inside the lock from here on, and a thread inside a native call holds the
lock. -/
def Shared.lockInv (s : Shared) : Prop :=
  ∀ t, lockGuarded (s.held t) (s.threads t).inNative (s.threads t).todo ∧
    ((s.threads t).inNative = true → 0 < s.held t)

/-! # Theorems -/

theorem repeatByte_length (n : Nat) (c : Char) : (repeatByte n c).length = n := by
  unfold repeatByte
  exact List.length_replicate _ _

theorem statementText_single_length (query r1 : Str) :
    (statementText query [r1]).length = query.length + r1.length + 2 := by
  simp [statementText, valuesText, rowText]
  omega

theorem statementText_pair_length (query r1 r2 : Str) :
    (statementText query [r1, r2]).length = query.length + r1.length + r2.length + 5 := by
  simp [statementText, valuesText, rowText]
  omega

/-- Two rows whose tracked length stays within the packet size go out as one
statement. -/
theorem DBInsert.bulk_pair_unflushed (P : Nat) (answer : List (Str × Bool) → Str → Bool)
    (query r1 r2 : Str) (h : query.length + r1.length + r2.length ≤ P) :
    (DBInsert.bulk (Database.fresh P answer) query [r1, r2]).texts
      = [statementText query [r1, r2]] := by
  have h1 : ¬ (P < query.length + r1.length) := by omega
  have h2 : ¬ (P < query.length + r1.length + r2.length) := by omega
  simp [DBInsert.bulk, DBInsert.addRows, DBInsert.addRow, DBInsert.execute, DBInsert.new,
    DBInsert.pushRow, Database.fresh, Database.executeQuery, Database.texts,
    Database.getMaxPacketSize, statementText, valuesText, rowText, h1, h2]

/-! ### The log only grows -/

theorem Database.executeQuery_issued (db : Database) (q : Str) :
    (db.executeQuery q).1.issued = db.issued ++ [(q, (db.executeQuery q).2)] := rfl

theorem DBInsert.execute_issued_grows (db : Database) (ins : DBInsert) :
    ∃ l, (DBInsert.execute db ins).1.issued = db.issued ++ l := by
  unfold DBInsert.execute
  split
  · exact ⟨[], by simp⟩
  · exact ⟨_, Database.executeQuery_issued db _⟩

theorem DBInsert.addRow_issued_grows (db : Database) (ins : DBInsert) (row : Str) :
    ∃ l, (DBInsert.addRow db ins row).1.issued = db.issued ++ l := by
  unfold DBInsert.addRow
  split
  · split
    · exact DBInsert.execute_issued_grows db _
    · exact DBInsert.execute_issued_grows db _
  · exact ⟨[], by simp⟩

theorem DBInsert.addRows_issued_grows (rows : List Str) :
    ∀ (db : Database) (ins : DBInsert),
      ∃ l, (DBInsert.addRows db ins rows).1.issued = db.issued ++ l := by
  induction rows with
  | nil => intro db ins; exact ⟨[], by simp [DBInsert.addRows]⟩
  | cons row rest ih =>
    intro db ins
    obtain ⟨l1, h1⟩ := DBInsert.addRow_issued_grows db ins row
    obtain ⟨l2, h2⟩ := ih (DBInsert.addRow db ins row).1 (DBInsert.addRow db ins row).2.1
    refine ⟨l1 ++ l2, ?_⟩
    simp only [DBInsert.addRows]
    rw [h2, h1, List.append_assoc]

/-! ### The buffer is the text of the rows not yet flushed -/

theorem rowText_ne_nil (row : Str) : rowText row ≠ [] := by
  simp [rowText]

theorem valuesText_eq_nil (rows : List Str) : valuesText rows = [] ↔ rows = [] := by
  cases rows with
  | nil => simp [valuesText]
  | cons r rest =>
    cases rest with
    | nil => simp [valuesText, rowText]
    | cons r2 rest2 => simp [valuesText, rowText]

theorem valuesText_concat (rows : List Str) (row : Str) (h : rows ≠ []) :
    valuesText (rows ++ [row]) = valuesText rows ++ [','] ++ ['('] ++ row ++ [')'] := by
  induction rows with
  | nil => exact absurd rfl h
  | cons r rest ih =>
    cases rest with
    | nil => simp [valuesText, rowText]
    | cons r2 rest2 =>
      have ih2 := ih (by simp)
      simp only [List.cons_append] at ih2 ⊢
      simp only [valuesText, ih2]
      simp

theorem Batched.pushRow {query : Str} {done : List Str} {db : Database} {ins : DBInsert}
    (h : Batched query done db ins) (row : Str) :
    Batched query (done ++ [row]) db (ins.pushRow row) := by
  obtain ⟨blocks, buf, hne, hdone, htexts, hval, hq⟩ := h
  refine ⟨blocks, buf ++ [row], hne, by rw [← List.append_assoc, hdone], htexts, ?_, ?_⟩
  · unfold DBInsert.pushRow
    by_cases hb : buf = []
    · subst hb
      simp [hval, valuesText, rowText]
    · have hv : ins.values ≠ [] := by rw [hval]; exact fun e => hb ((valuesText_eq_nil buf).1 e)
      have hv2 : ¬ (valuesText buf = []) := hval ▸ hv
      simp [hv2, valuesText_concat buf row hb, hval]
  · unfold DBInsert.pushRow
    split <;> exact hq

theorem Batched.setLength {query : Str} {done : List Str} {db : Database} {ins : DBInsert}
    (h : Batched query done db ins) (n : Nat) :
    Batched query done db { ins with length := n } := h

theorem Batched.execute {query : Str} {done : List Str} {db : Database} {ins : DBInsert}
    (h : Batched query done db ins)
    (hok : ∀ e ∈ (DBInsert.execute db ins).1.issued, e.2 = true) :
    Batched query done (DBInsert.execute db ins).1 (DBInsert.execute db ins).2.1 ∧
      (DBInsert.execute db ins).2.1.values = [] ∧ (DBInsert.execute db ins).2.2 = true := by
  obtain ⟨blocks, buf, hne, hdone, htexts, hval, hq⟩ := h
  by_cases hv : ins.values = []
  · have hb : buf = [] := (valuesText_eq_nil buf).1 (hval ▸ hv)
    have he : DBInsert.execute db ins = (db, ins, true) := by simp [DBInsert.execute, hv]
    rw [he]
    exact ⟨⟨blocks, buf, hne, hdone, htexts, hval, hq⟩, hv, rfl⟩
  · have hb : buf ≠ [] := fun e => hv (by rw [hval, e]; rfl)
    have he : DBInsert.execute db ins =
        ((db.executeQuery (ins.query ++ ins.values)).1,
          { ins with values := [], length := ins.query.length },
          (db.executeQuery (ins.query ++ ins.values)).2) := by
      simp [DBInsert.execute, hv]
    rw [he] at hok ⊢
    have hflag : (db.executeQuery (ins.query ++ ins.values)).2 = true :=
      hok (ins.query ++ ins.values, (db.executeQuery (ins.query ++ ins.values)).2)
        (by rw [Database.executeQuery_issued]; simp)
    refine ⟨⟨blocks ++ [buf], [], ?_, ?_, ?_, rfl, hq⟩, rfl, hflag⟩
    · intro b hbm
      rcases List.mem_append.1 hbm with h1 | h1
      · exact hne b h1
      · rw [List.mem_singleton.1 h1]; exact hb
    · simpa using hdone
    · simp only [Database.texts, Database.executeQuery_issued, List.map_append, List.map_cons,
        List.map_nil]
      rw [show db.issued.map Prod.fst = db.texts from rfl, htexts, hq, hval]
      rfl

theorem Batched.addRow {query : Str} {done : List Str} {db : Database} {ins : DBInsert}
    (h : Batched query done db ins) (row : Str)
    (hok : ∀ e ∈ (DBInsert.addRow db ins row).1.issued, e.2 = true) :
    Batched query (done ++ [row]) (DBInsert.addRow db ins row).1
      (DBInsert.addRow db ins row).2.1 := by
  by_cases hp : ins.length + row.length > db.getMaxPacketSize
  · have hio : (DBInsert.addRow db ins row).1.issued
        = (DBInsert.execute db { ins with length := ins.length + row.length }).1.issued := by
      unfold DBInsert.addRow
      rw [if_pos hp]
      split <;> rfl
    rw [hio] at hok
    obtain ⟨hb, -, hflag⟩ := (h.setLength (ins.length + row.length)).execute hok
    have he : DBInsert.addRow db ins row =
        ((DBInsert.execute db { ins with length := ins.length + row.length }).1,
          (DBInsert.execute db { ins with length := ins.length + row.length }).2.1.pushRow row,
          true) := by
      unfold DBInsert.addRow
      rw [if_pos hp, if_pos hflag]
    rw [he]
    exact hb.pushRow row
  · have he : DBInsert.addRow db ins row =
        (db, ({ ins with length := ins.length + row.length } : DBInsert).pushRow row, true) := by
      unfold DBInsert.addRow
      rw [if_neg hp]
    rw [he]
    exact (h.setLength (ins.length + row.length)).pushRow row

theorem Batched.addRows {query : Str} (rows : List Str) :
    ∀ (done : List Str) (db : Database) (ins : DBInsert), Batched query done db ins →
      (∀ e ∈ (DBInsert.addRows db ins rows).1.issued, e.2 = true) →
      Batched query (done ++ rows) (DBInsert.addRows db ins rows).1
        (DBInsert.addRows db ins rows).2.1 := by
  induction rows with
  | nil =>
    intro done db ins h _
    simpa [DBInsert.addRows] using h
  | cons row rest ih =>
    intro done db ins h hok
    simp only [DBInsert.addRows] at hok ⊢
    obtain ⟨l, hl⟩ := DBInsert.addRows_issued_grows rest (DBInsert.addRow db ins row).1
      (DBInsert.addRow db ins row).2.1
    have h1 : Batched query (done ++ [row]) (DBInsert.addRow db ins row).1
        (DBInsert.addRow db ins row).2.1 :=
      h.addRow row (fun e he => hok e (by rw [hl]; exact List.mem_append_left _ he))
    have h2 := ih (done ++ [row]) _ _ h1 hok
    simpa using h2

theorem Batched.new (P : Nat) (answer : List (Str × Bool) → Str → Bool) (query : Str) :
    Batched query [] (Database.fresh P answer) (DBInsert.new query) :=
  ⟨[], [], by simp, rfl, rfl, rfl, rfl⟩

/-- C2. On a connection with nothing issued yet, whatever the packet size and
the driver: when every `executeQuery` call of `addRow(r1), ..., addRow(rn),
execute()` returned true, the texts issued are `query ++ "(a1),...,(am)"` for
consecutive non-empty blocks of the rows, and the blocks put end to end are
`r1, ..., rn` (no row lost, duplicated, reordered or split). -/
theorem DBInsert.bulk_issues_blocks_of_rows (P : Nat)
    (answer : List (Str × Bool) → Str → Bool) (query : Str) (rows : List Str)
    (hok : ∀ e ∈ (DBInsert.bulk (Database.fresh P answer) query rows).issued, e.2 = true) :
    ∃ blocks : List (List Str),
      (∀ b ∈ blocks, b ≠ []) ∧ blocks.flatten = rows ∧
      (DBInsert.bulk (Database.fresh P answer) query rows).texts
        = blocks.map (statementText query) := by
  unfold DBInsert.bulk at hok ⊢
  obtain ⟨l, hl⟩ := DBInsert.execute_issued_grows
    (DBInsert.addRows (Database.fresh P answer) (DBInsert.new query) rows).1
    (DBInsert.addRows (Database.fresh P answer) (DBInsert.new query) rows).2.1
  have h1 := Batched.addRows rows [] _ _ (Batched.new P answer query)
    (fun e he => hok e (by rw [hl]; exact List.mem_append_left _ he))
  obtain ⟨⟨blocks, buf, hne, hdone, htexts, hval, -⟩, hempty, -⟩ := h1.execute hok
  have hb : buf = [] := (valuesText_eq_nil buf).1 (hval ▸ hempty)
  subst hb
  exact ⟨blocks, hne, by simpa using hdone, htexts⟩

/-- Three rows under a packet size of 40 bytes: the third row forces a flush. -/
theorem DBInsert.bulk_issues_blocks_of_rows_witness :
    (∀ e ∈ (DBInsert.bulk (Database.fresh 40 alwaysOk) insertHead
        [['1', ',', '2'], ['3', ',', '4'], ['5', ',', '6', ',', '7', ',', '8', ',', '9', ',', '0', ',', '1', ',', '2']]).issued,
        e.2 = true) ∧
    ∃ blocks : List (List Str),
      (∀ b ∈ blocks, b ≠ []) ∧
      blocks.flatten = [['1', ',', '2'], ['3', ',', '4'], ['5', ',', '6', ',', '7', ',', '8', ',', '9', ',', '0', ',', '1', ',', '2']] ∧
      (DBInsert.bulk (Database.fresh 40 alwaysOk) insertHead
        [['1', ',', '2'], ['3', ',', '4'], ['5', ',', '6', ',', '7', ',', '8', ',', '9', ',', '0', ',', '1', ',', '2']]).texts
        = blocks.map (statementText insertHead) :=
  ⟨by decide, DBInsert.bulk_issues_blocks_of_rows 40 alwaysOk insertHead _ (by decide)⟩

/-! ### The packet-size bound -/

/-- C1, evaluated at the default packet size 1048576 with the statement head
`INSERT INTO t VALUES ` and two rows of 524277 bytes: each row fits on its own
(21 + 524277 + 2 bytes), the tracked length reaches only 1048575 because it
leaves out the parentheses and the comma, so no flush happens and `execute()`
passes one statement of 1048580 bytes, longer than the packet size. -/
theorem DBInsert.bulk_statement_exceeds_packet_size :
    (insertHead.length + (repeatByte 524277 'a').length + 2 ≤ defaultMaxPacketSize ∧
      insertHead.length + (repeatByte 524277 'b').length + 2 ≤ defaultMaxPacketSize) ∧
    (DBInsert.bulk (Database.fresh defaultMaxPacketSize alwaysOk) insertHead
        [repeatByte 524277 'a', repeatByte 524277 'b']).texts
      = [statementText insertHead [repeatByte 524277 'a', repeatByte 524277 'b']] ∧
    (statementText insertHead [repeatByte 524277 'a', repeatByte 524277 'b']).length = 1048580 ∧
    defaultMaxPacketSize < 1048580 := by
  have hl : insertHead.length = 21 := rfl
  refine ⟨⟨?_, ?_⟩, ?_, ?_, ?_⟩
  · rw [repeatByte_length, hl]; decide
  · rw [repeatByte_length, hl]; decide
  · apply DBInsert.bulk_pair_unflushed
    rw [repeatByte_length, repeatByte_length, hl]; decide
  · rw [statementText_pair_length, repeatByte_length, repeatByte_length, hl]
  · decide

/-! ### `execute()` -/

/-- C6. `DBInsert::execute()`: with an empty buffer it returns true and the log
of `executeQuery` calls is unchanged; otherwise the log gains exactly one
entry, `query ++ values` with the flag the driver answered, that flag is
returned, and afterwards the buffer is empty and the tracked length is the
length of `query`, whatever the flag. -/
theorem DBInsert.execute_contract (db : Database) (ins : DBInsert) :
    (ins.values = [] →
      (DBInsert.execute db ins).2.2 = true ∧
      (DBInsert.execute db ins).1.issued = db.issued) ∧
    (ins.values ≠ [] →
      (DBInsert.execute db ins).1.issued
        = db.issued ++ [(ins.query ++ ins.values, db.answer db.issued (ins.query ++ ins.values))] ∧
      (DBInsert.execute db ins).2.2 = db.answer db.issued (ins.query ++ ins.values) ∧
      (DBInsert.execute db ins).2.1.values = [] ∧
      (DBInsert.execute db ins).2.1.length = ins.query.length) := by
  constructor
  · intro h
    simp [DBInsert.execute, h]
  · intro h
    simp [DBInsert.execute, h, Database.executeQuery]

/-- An empty buffer on an accepting driver, and a one-row buffer on a driver
that rejects the statement. -/
theorem DBInsert.execute_contract_witness :
    ((DBInsert.new insertHead).values = [] ∧
      (DBInsert.execute (Database.fresh 64 alwaysOk) (DBInsert.new insertHead)).2.2 = true ∧
      (DBInsert.execute (Database.fresh 64 alwaysOk) (DBInsert.new insertHead)).1.issued = []) ∧
    (oneRowBuffered.values ≠ [] ∧
      (DBInsert.execute (Database.fresh 64 alwaysFails) oneRowBuffered).1.issued
        = [(insertHead ++ ['(', '1', ',', '2', ')'], false)] ∧
      (DBInsert.execute (Database.fresh 64 alwaysFails) oneRowBuffered).2.2 = false ∧
      (DBInsert.execute (Database.fresh 64 alwaysFails) oneRowBuffered).2.1.values = [] ∧
      (DBInsert.execute (Database.fresh 64 alwaysFails) oneRowBuffered).2.1.length = 21) :=
  ⟨⟨rfl, (DBInsert.execute_contract (Database.fresh 64 alwaysOk) (DBInsert.new insertHead)).1 rfl⟩,
    ⟨by decide,
      (DBInsert.execute_contract (Database.fresh 64 alwaysFails) oneRowBuffered).2 (by decide)⟩⟩

/-! ### When `addRow` flushes -/

/-- C7, evaluated at the default packet size 1048576 with the statement head
`INSERT INTO t VALUES `, a first row of 1048550 bytes and the second row `b`:
the text with the first row alone has 1048573 bytes, with both rows it would
have 1048577 bytes, more than the packet size, and the second row alone fits;
yet the tracked length is only 1048572, `addRow` does not flush, and the single
statement issued holds both rows instead of one statement for each. -/
theorem DBInsert.addRow_flush_ignores_projected_length :
    (statementText insertHead [repeatByte 1048550 'a']).length ≤ defaultMaxPacketSize ∧
    defaultMaxPacketSize < (statementText insertHead [repeatByte 1048550 'a', ['b']]).length ∧
    (statementText insertHead [['b']]).length ≤ defaultMaxPacketSize ∧
    (DBInsert.bulk (Database.fresh defaultMaxPacketSize alwaysOk) insertHead
        [repeatByte 1048550 'a', ['b']]).texts
      = [statementText insertHead [repeatByte 1048550 'a', ['b']]] ∧
    (DBInsert.bulk (Database.fresh defaultMaxPacketSize alwaysOk) insertHead
        [repeatByte 1048550 'a', ['b']]).texts
      ≠ [statementText insertHead [repeatByte 1048550 'a'], statementText insertHead [['b']]] := by
  have hl : insertHead.length = 21 := rfl
  have hrun : (DBInsert.bulk (Database.fresh defaultMaxPacketSize alwaysOk) insertHead
        [repeatByte 1048550 'a', ['b']]).texts
      = [statementText insertHead [repeatByte 1048550 'a', ['b']]] := by
    apply DBInsert.bulk_pair_unflushed
    rw [repeatByte_length, hl]; decide
  refine ⟨?_, ?_, ?_, hrun, ?_⟩
  · rw [statementText_single_length, repeatByte_length, hl]; decide
  · rw [statementText_pair_length, repeatByte_length, hl]; decide
  · rw [statementText_single_length, hl]; decide
  · rw [hrun]
    intro h
    injection h with _ h2
    cases h2

/-! ### ODBC escaping -/

theorem DatabaseODBC.escapeLoop_eq (s : Str) :
    ∀ (n : Nat) (buf : Str),
      DatabaseODBC.escapeLoop s n buf = buf ++ (s.take n).flatMap DatabaseODBC.escapeByte := by
  induction s with
  | nil =>
    intro n buf
    cases n <;> simp [DatabaseODBC.escapeLoop]
  | cons c rest ih =>
    intro n buf
    cases n with
    | zero => simp [DatabaseODBC.escapeLoop]
    | succ m => simp [DatabaseODBC.escapeLoop, ih, List.flatMap_cons]

theorem DatabaseODBC.escapeByte_eq_lookup (c : Char) :
    DatabaseODBC.escapeByte c = (odbcReplacements.lookup c).getD [c] := by
  unfold DatabaseODBC.escapeByte odbcReplacements
  by_cases h1 : c = chQuote
  · subst h1; rfl
  by_cases h2 : c = chNul
  · subst h2; rfl
  by_cases h3 : c = chBackslash
  · subst h3; rfl
  by_cases h4 : c = chCR
  · subst h4; rfl
  by_cases h5 : c = chLF
  · subst h5; rfl
  have e1 : (c == chQuote) = false := by simpa using h1
  have e2 : (c == chNul) = false := by simpa using h2
  have e3 : (c == chBackslash) = false := by simpa using h3
  have e4 : (c == chCR) = false := by simpa using h4
  have e5 : (c == chLF) = false := by simpa using h5
  simp [List.lookup, h1, h2, h3, h4, h5, e1, e2, e3, e4, e5]

theorem odbcUnescape_body (s : Str) :
    odbcUnescape (s.flatMap DatabaseODBC.escapeByte) = s := by
  have q1 : ¬ (chNul = chQuote) := by decide
  have q2 : ¬ (chBackslash = chQuote) := by decide
  have q3 : ¬ (chBackslash = '0') := by decide
  have q4 : ¬ (chBackslash = 'r') := by decide
  have q5 : ¬ ('r' = chBackslash) := by decide
  have q6 : ¬ ('r' = '0') := by decide
  have q7 : ¬ ('n' = chBackslash) := by decide
  have q8 : ¬ ('n' = '0') := by decide
  have q9 : ¬ ('n' = 'r') := by decide
  induction s with
  | nil => rfl
  | cons c rest ih =>
    rw [List.flatMap_cons]
    by_cases h1 : c = chQuote
    · subst h1
      simp [DatabaseODBC.escapeByte, odbcUnescape, ih]
    by_cases h2 : c = chNul
    · subst h2
      simp [DatabaseODBC.escapeByte, odbcUnescape, ih, q1, q2]
    by_cases h3 : c = chBackslash
    · subst h3
      simp [DatabaseODBC.escapeByte, odbcUnescape, ih, q1, q2, q3]
    by_cases h4 : c = chCR
    · subst h4
      simp [DatabaseODBC.escapeByte, odbcUnescape, ih, q1, q2, q3, q4, q5, q6, h1, h2, h3]
    by_cases h5 : c = chLF
    · subst h5
      simp [DatabaseODBC.escapeByte, odbcUnescape, ih, q1, q2, q3, q4, q5, q6, q7, q8, q9,
        h1, h2, h3, h4]
    have hb : DatabaseODBC.escapeByte c = [c] := by
      simp [DatabaseODBC.escapeByte, h1, h2, h3, h4, h5]
    rw [hb]
    cases hr : rest.flatMap DatabaseODBC.escapeByte with
    | nil =>
      rw [hr] at ih
      simp [odbcUnescape, ← ih]
    | cons b tl =>
      rw [hr] at ih
      simp [odbcUnescape, h1, h3, ih]

theorem odbcLiteral_eq (s : Str) :
    odbcLiteral s = [chQuote] ++ s.flatMap DatabaseODBC.escapeByte ++ [chQuote] := by
  unfold odbcLiteral
  have h : (fun c => (odbcReplacements.lookup c).getD [c]) = DatabaseODBC.escapeByte :=
    funext fun c => (DatabaseODBC.escapeByte_eq_lookup c).symm
  rw [h]

theorem odbcDecode_literal (s : Str) : odbcDecode (odbcLiteral s) = some s := by
  rw [odbcLiteral_eq]
  simp only [List.singleton_append, List.cons_append, odbcDecode]
  rw [List.getLast?_concat, List.dropLast_concat]
  simp [odbcUnescape_body]

theorem DatabaseODBC.escapeString_of_short (s : Str) (hs : s.length < 2 ^ 32) :
    DatabaseODBC.escapeString s = odbcLiteral s := by
  rw [odbcLiteral_eq]
  unfold DatabaseODBC.escapeString DatabaseODBC.escapeBlob
  rw [DatabaseODBC.escapeLoop_eq, Nat.mod_eq_of_lt hs, List.take_length]

/-- C4, as amended. For every byte string `s` (NUL bytes included) shorter than
2^32 bytes, the ODBC `escapeString(s)` is the literal of the grammar (`s` in
single quotes with quote, NUL, backslash, CR and LF replaced by their
two-character sequences and every other byte copied), decoding it recovers
`s`, and so `escapeString` is injective on such strings. -/
theorem DatabaseODBC.escapeString_roundtrip (s t : Str)
    (hs : s.length < 2 ^ 32) (ht : t.length < 2 ^ 32) :
    DatabaseODBC.escapeString s = odbcLiteral s ∧
    odbcDecode (DatabaseODBC.escapeString s) = some s ∧
    (DatabaseODBC.escapeString s = DatabaseODBC.escapeString t → s = t) := by
  refine ⟨DatabaseODBC.escapeString_of_short s hs, ?_, ?_⟩
  · rw [DatabaseODBC.escapeString_of_short s hs, odbcDecode_literal]
  · intro h
    have h1 : odbcDecode (DatabaseODBC.escapeString s) = some s := by
      rw [DatabaseODBC.escapeString_of_short s hs, odbcDecode_literal]
    have h2 : odbcDecode (DatabaseODBC.escapeString t) = some t := by
      rw [DatabaseODBC.escapeString_of_short t ht, odbcDecode_literal]
    rw [h, h2] at h1
    exact (Option.some.inj h1).symm

/-- The string `it's` followed by a NUL, a backslash and a line break, against
`its`. -/
theorem DatabaseODBC.escapeString_roundtrip_witness :
    (['i', 't', chQuote, 's', chNul, chBackslash, chCR, chLF] : Str).length < 2 ^ 32 ∧
    (['i', 't', 's'] : Str).length < 2 ^ 32 ∧
    DatabaseODBC.escapeString ['i', 't', chQuote, 's', chNul, chBackslash, chCR, chLF]
      = odbcLiteral ['i', 't', chQuote, 's', chNul, chBackslash, chCR, chLF] ∧
    odbcDecode (DatabaseODBC.escapeString ['i', 't', chQuote, 's', chNul, chBackslash, chCR, chLF])
      = some ['i', 't', chQuote, 's', chNul, chBackslash, chCR, chLF] ∧
    (DatabaseODBC.escapeString ['i', 't', chQuote, 's', chNul, chBackslash, chCR, chLF]
      = DatabaseODBC.escapeString ['i', 't', 's'] →
      (['i', 't', chQuote, 's', chNul, chBackslash, chCR, chLF] : Str) = ['i', 't', 's']) :=
  ⟨by decide, by decide,
    DatabaseODBC.escapeString_roundtrip
      ['i', 't', chQuote, 's', chNul, chBackslash, chCR, chLF] ['i', 't', 's']
      (by decide) (by decide)⟩

/-- C4 fails as stated: for the string of 4294967296 bytes `a` the length
passed to `escapeBlob` is 0 after narrowing to `uint32_t`, `escapeString`
returns the empty literal, which is not the literal of the grammar and decodes
to the empty string. -/
theorem DatabaseODBC.escapeString_drops_long_string :
    DatabaseODBC.escapeString (repeatByte 4294967296 'a') = [chQuote, chQuote] ∧
    DatabaseODBC.escapeString (repeatByte 4294967296 'a')
      ≠ odbcLiteral (repeatByte 4294967296 'a') ∧
    odbcDecode (DatabaseODBC.escapeString (repeatByte 4294967296 'a'))
      ≠ some (repeatByte 4294967296 'a') := by
  have he : DatabaseODBC.escapeString (repeatByte 4294967296 'a') = [chQuote, chQuote] := by
    unfold DatabaseODBC.escapeString DatabaseODBC.escapeBlob
    rw [repeatByte_length]
    rfl
  have hd : odbcDecode [chQuote, chQuote] = some [] := by decide
  have hne : (some [] : Option Str) ≠ some (repeatByte 4294967296 'a') := by
    intro h
    have hl := congrArg List.length (Option.some.inj h)
    rw [repeatByte_length] at hl
    exact absurd hl (by decide)
  refine ⟨he, ?_, ?_⟩
  · intro h
    have h2 := odbcDecode_literal (repeatByte 4294967296 'a')
    rw [← h, he, hd] at h2
    exact hne h2
  · rw [he, hd]
    exact hne

/-! ### SQLite escaping -/

theorem sqliteLiteral_body_head (s : Str) :
    ∀ b tl, s.flatMap sqliteLiteralByte = b :: tl → b ≠ '%' ∧ b ≠ '_' := by
  have q1 : ¬ (chQuote = '%') := by decide
  have q2 : ¬ (chQuote = '_') := by decide
  have q3 : ¬ (chBackslash = '%') := by decide
  have q4 : ¬ (chBackslash = '_') := by decide
  intro b tl h
  cases s with
  | nil => simp at h
  | cons c rest =>
    rw [List.flatMap_cons] at h
    unfold sqliteLiteralByte at h
    split at h
    · simp at h; rw [← h.1]; exact ⟨q1, q2⟩
    · split at h
      · simp at h; rw [← h.1]; exact ⟨q3, q4⟩
      · split at h
        · simp at h; rw [← h.1]; exact ⟨q3, q4⟩
        · simp at h
          rw [← h.1]
          constructor <;> assumption

theorem sqliteUnescape_body (s : Str) :
    sqliteUnescape (s.flatMap sqliteLiteralByte) = some s := by
  have q1 : ¬ (chBackslash = chQuote) := by decide
  induction s with
  | nil => rfl
  | cons c rest ih =>
    rw [List.flatMap_cons]
    by_cases h1 : c = chQuote
    · subst h1
      simp [sqliteLiteralByte, sqliteUnescape, ih]
    by_cases h2 : c = '%'
    · subst h2
      simp [sqliteLiteralByte, sqliteUnescape, ih, q1, h1]
    by_cases h3 : c = '_'
    · subst h3
      simp [sqliteLiteralByte, sqliteUnescape, ih, q1, h1, h2]
    have hb : sqliteLiteralByte c = [c] := by simp [sqliteLiteralByte, h1, h2, h3]
    rw [hb]
    cases hr : rest.flatMap sqliteLiteralByte with
    | nil =>
      rw [hr] at ih
      simp [sqliteUnescape] at ih
      simp [sqliteUnescape, h1, ← ih]
    | cons b tl =>
      obtain ⟨hb1, hb2⟩ := sqliteLiteral_body_head rest b tl hr
      rw [hr] at ih
      simp [sqliteUnescape, h1, hb1, hb2, ih]

/-- The decoder is the inverse of the grammar: decoding the literal of `s`
gives `s`. -/
theorem sqliteDecode_literal (s : Str) : sqliteDecode (sqliteLiteral s) = some s := by
  unfold sqliteLiteral
  simp only [List.singleton_append, List.cons_append, sqliteDecode]
  rw [List.getLast?_concat, List.dropLast_concat]
  simp [sqliteUnescape_body]

/-- C3, evaluated at the one-byte string `'` and at `a'`. For `'` the size
passed to `sqlite3_snprintf` is 3, so only 2 of the 4 bytes of the quoted text
are written and `escapeString` returns the empty literal, which is
not the literal of the grammar and decodes to the empty string. For `a'` the
size is 5, the result is the 4 bytes quote, `a`, quote, quote, whose body has
a single quote on its own: no literal at all. -/
theorem DatabaseSQLite.escapeString_truncates_quotes :
    (DatabaseSQLite.escapeString [chQuote] = some [chQuote, chQuote] ∧
      sqliteLiteral [chQuote] = [chQuote, chQuote, chQuote, chQuote] ∧
      sqliteDecode [chQuote, chQuote] = some [] ∧
      sqliteDecode (sqliteLiteral [chQuote]) = some [chQuote]) ∧
    (DatabaseSQLite.escapeString ['a', chQuote] = some [chQuote, 'a', chQuote, chQuote] ∧
      sqliteLiteral ['a', chQuote] = [chQuote, 'a', chQuote, chQuote, chQuote] ∧
      sqliteDecode [chQuote, 'a', chQuote, chQuote] = none ∧
      sqliteDecode (sqliteLiteral ['a', chQuote]) = some ['a', chQuote]) := by
  refine ⟨⟨?_, ?_, ?_, ?_⟩, ⟨?_, ?_, ?_, ?_⟩⟩ <;> decide

/-! ### The transaction guard -/

theorem Database.executeQuery_texts (db : Database) (q : Str) :
    (db.executeQuery q).1.texts = db.texts ++ [q] := by
  simp [Database.executeQuery, Database.texts]

theorem DBTransaction.run_committed (cs : List TxCall) (hb : TxCall.begin ∉ cs) :
    ∀ db : Database,
      (DBTransaction.run db { state := .STATE_COMMIT } cs).1 = db ∧
      (DBTransaction.run db { state := .STATE_COMMIT } cs).2.1.state = .STATE_COMMIT ∧
      ∀ st ∈ (DBTransaction.run db { state := .STATE_COMMIT } cs).2.2, st.returned = false := by
  induction cs with
  | nil => intro db; simp [DBTransaction.run]
  | cons c rest ih =>
    intro db
    cases c with
    | begin => exact absurd (List.mem_cons_self _ _) hb
    | commit =>
      have hr : TxCall.begin ∉ rest := fun h => hb (List.mem_cons_of_mem _ h)
      obtain ⟨h1, h2, h3⟩ := ih hr db
      simp only [DBTransaction.run, DBTransaction.call, DBTransaction.commit]
      simp only [ne_eq, reduceCtorEq, not_false_eq_true, if_true]
      refine ⟨h1, h2, ?_⟩
      intro st hst
      rcases List.mem_cons.1 hst with h | h
      · rw [h]
      · exact h3 st h

theorem DBTransaction.run_started (cs : List TxCall) (hb : TxCall.begin ∉ cs) (db : Database)
    (hc : someCommitSucceeded (DBTransaction.run db { state := .STATE_START } cs).2.2) :
    (DBTransaction.run db { state := .STATE_START } cs).1.texts = db.texts ++ [sqlCOMMIT] ∧
    (DBTransaction.run db { state := .STATE_START } cs).2.1.state = .STATE_COMMIT := by
  cases cs with
  | nil =>
    obtain ⟨st, hst, -⟩ := hc
    simp [DBTransaction.run] at hst
  | cons c rest =>
    cases c with
    | begin => exact absurd (List.mem_cons_self _ _) hb
    | commit =>
      have hr : TxCall.begin ∉ rest := fun h => hb (List.mem_cons_of_mem _ h)
      obtain ⟨h1, h2, -⟩ := DBTransaction.run_committed rest hr db.commit.1
      simp only [DBTransaction.run, DBTransaction.call, DBTransaction.commit]
      simp only [ne_eq, not_true_eq_false, if_false]
      rw [h1, h2]
      exact ⟨Database.executeQuery_texts db sqlCOMMIT, rfl⟩

theorem DBTransaction.run_not_started (cs : List TxCall) (hb : cs.count TxCall.begin = 1) :
    ∀ db : Database,
      someCommitSucceeded (DBTransaction.run db DBTransaction.new cs).2.2 →
      (DBTransaction.run db DBTransaction.new cs).1.texts = db.texts ++ [sqlBEGIN, sqlCOMMIT] ∧
      (DBTransaction.run db DBTransaction.new cs).2.1.state = .STATE_COMMIT := by
  induction cs with
  | nil => simp at hb
  | cons c rest ih =>
    intro db hc
    cases c with
    | begin =>
      have hr : TxCall.begin ∉ rest := by
        intro h
        have := List.count_pos_iff.2 h
        simp at hb
        omega
      have hc2 : someCommitSucceeded
          (DBTransaction.run db.beginTransaction.1 { state := .STATE_START } rest).2.2 := by
        obtain ⟨st, hst, h1, h2⟩ := hc
        simp only [DBTransaction.run, DBTransaction.call, DBTransaction.begin] at hst
        rcases List.mem_cons.1 hst with h | h
        · rw [h] at h1; cases h1
        · exact ⟨st, h, h1, h2⟩
      obtain ⟨h1, h2⟩ := DBTransaction.run_started rest hr db.beginTransaction.1 hc2
      simp only [DBTransaction.run, DBTransaction.call, DBTransaction.begin]
      refine ⟨?_, h2⟩
      rw [h1]
      simp [Database.beginTransaction, Database.executeQuery_texts]
    | commit =>
      have hr : rest.count TxCall.begin = 1 := by simpa using hb
      have hstep : DBTransaction.commit db DBTransaction.new = (db, DBTransaction.new, false) := by
        simp [DBTransaction.commit, DBTransaction.new]
      have hc2 : someCommitSucceeded (DBTransaction.run db DBTransaction.new rest).2.2 := by
        obtain ⟨st, hst, h1, h2⟩ := hc
        simp only [DBTransaction.run, DBTransaction.call, hstep] at hst
        rcases List.mem_cons.1 hst with h | h
        · rw [h] at h2; cases h2
        · exact ⟨st, h, h1, h2⟩
      simp only [DBTransaction.run, DBTransaction.call, hstep]
      exact ih hr db hc2

theorem DBTransaction.run_begins (cs : List TxCall) (hc : TxCall.commit ∉ cs) :
    ∀ (db : Database) (t : DBTransaction),
      (DBTransaction.run db t cs).1.texts = db.texts ++ List.replicate cs.length sqlBEGIN ∧
      (cs ≠ [] → (DBTransaction.run db t cs).2.1.state = .STATE_START) := by
  induction cs with
  | nil => intro db t; simp [DBTransaction.run]
  | cons c rest ih =>
    intro db t
    cases c with
    | commit => exact absurd (List.mem_cons_self _ _) hc
    | begin =>
      have hr : TxCall.commit ∉ rest := fun h => hc (List.mem_cons_of_mem _ h)
      obtain ⟨h1, h2⟩ := ih hr db.beginTransaction.1 { state := .STATE_START }
      simp only [DBTransaction.run, DBTransaction.call, DBTransaction.begin]
      refine ⟨?_, fun _ => ?_⟩
      · rw [h1]
        simp [Database.beginTransaction, Database.executeQuery_texts, List.replicate_succ]
      · by_cases hne : rest = []
        · subst hne; rfl
        · exact h2 hne

/-- C5, as amended. Over a lifetime of a `DBTransaction` on a connection with
nothing issued yet: if `begin()` was called and `commit()` never, exactly one
ROLLBACK is issued; if `begin()` was called exactly once and some `commit()`
call returned true, the statements issued are exactly one BEGIN, exactly one
COMMIT and no ROLLBACK. -/
theorem DBTransaction.lifetime_statements (P : Nat)
    (answer : List (Str × Bool) → Str → Bool) (cs : List TxCall) :
    (TxCall.begin ∈ cs → TxCall.commit ∉ cs →
      (DBTransaction.lifetime (Database.fresh P answer) cs).1.texts.count sqlROLLBACK = 1) ∧
    (cs.count TxCall.begin = 1 →
      someCommitSucceeded (DBTransaction.lifetime (Database.fresh P answer) cs).2 →
      (DBTransaction.lifetime (Database.fresh P answer) cs).1.texts.count sqlBEGIN = 1 ∧
      (DBTransaction.lifetime (Database.fresh P answer) cs).1.texts.count sqlCOMMIT = 1 ∧
      (DBTransaction.lifetime (Database.fresh P answer) cs).1.texts.count sqlROLLBACK = 0) := by
  constructor
  · intro hb hc
    have hne : cs ≠ [] := List.ne_nil_of_mem hb
    obtain ⟨h1, h2⟩ := DBTransaction.run_begins cs hc (Database.fresh P answer) DBTransaction.new
    have h3 := h2 hne
    simp only [DBTransaction.lifetime, DBTransaction.destroy, h3, if_true, Database.rollback,
      Database.executeQuery_texts, h1]
    have hd : (sqlBEGIN == sqlROLLBACK) = false := by decide
    simp [Database.texts, Database.fresh, List.count_replicate, hd]
  · intro hb hc
    obtain ⟨h1, h2⟩ := DBTransaction.run_not_started cs hb (Database.fresh P answer) hc
    have h3 : (DBTransaction.lifetime (Database.fresh P answer) cs).1.texts
        = [sqlBEGIN, sqlCOMMIT] := by
      simp only [DBTransaction.lifetime, DBTransaction.destroy, h2, reduceCtorEq, if_false, h1]
      rfl
    rw [h3]
    decide

/-- The lifetimes `begin(); begin();` and `commit(); begin(); commit();
commit();`, the latter on a driver that accepts every statement. -/
theorem DBTransaction.lifetime_statements_witness :
    (TxCall.begin ∈ [TxCall.begin, TxCall.begin] ∧
      TxCall.commit ∉ [TxCall.begin, TxCall.begin] ∧
      (DBTransaction.lifetime (Database.fresh 64 alwaysFails)
        [TxCall.begin, TxCall.begin]).1.texts.count sqlROLLBACK = 1) ∧
    ([TxCall.commit, TxCall.begin, TxCall.commit, TxCall.commit].count TxCall.begin = 1 ∧
      someCommitSucceeded (DBTransaction.lifetime (Database.fresh 64 alwaysOk)
        [TxCall.commit, TxCall.begin, TxCall.commit, TxCall.commit]).2 ∧
      (DBTransaction.lifetime (Database.fresh 64 alwaysOk)
        [TxCall.commit, TxCall.begin, TxCall.commit, TxCall.commit]).1.texts.count sqlBEGIN = 1 ∧
      (DBTransaction.lifetime (Database.fresh 64 alwaysOk)
        [TxCall.commit, TxCall.begin, TxCall.commit, TxCall.commit]).1.texts.count sqlCOMMIT = 1 ∧
      (DBTransaction.lifetime (Database.fresh 64 alwaysOk)
        [TxCall.commit, TxCall.begin, TxCall.commit, TxCall.commit]).1.texts.count sqlROLLBACK
        = 0) :=
  ⟨⟨by decide, by decide,
      (DBTransaction.lifetime_statements 64 alwaysFails [TxCall.begin, TxCall.begin]).1
        (by decide) (by decide)⟩,
    ⟨by decide, by unfold someCommitSucceeded; decide,
      (DBTransaction.lifetime_statements 64 alwaysOk
        [TxCall.commit, TxCall.begin, TxCall.commit, TxCall.commit]).2
        (by decide) (by unfold someCommitSucceeded; decide)⟩⟩

/-- C5 fails as stated: in the lifetime `begin(); commit(); begin();` on a
driver that accepts every statement the `commit()` call returns true, yet two
BEGIN are issued and the destructor issues a ROLLBACK. -/
theorem DBTransaction.lifetime_begin_after_commit :
    someCommitSucceeded (DBTransaction.lifetime (Database.fresh 64 alwaysOk)
      [TxCall.begin, TxCall.commit, TxCall.begin]).2 ∧
    (DBTransaction.lifetime (Database.fresh 64 alwaysOk)
      [TxCall.begin, TxCall.commit, TxCall.begin]).1.texts
      = [sqlBEGIN, sqlCOMMIT, sqlBEGIN, sqlROLLBACK] ∧
    ¬ ((DBTransaction.lifetime (Database.fresh 64 alwaysOk)
        [TxCall.begin, TxCall.commit, TxCall.begin]).1.texts.count sqlBEGIN = 1 ∧
      (DBTransaction.lifetime (Database.fresh 64 alwaysOk)
        [TxCall.begin, TxCall.commit, TxCall.begin]).1.texts.count sqlCOMMIT = 1 ∧
      (DBTransaction.lifetime (Database.fresh 64 alwaysOk)
        [TxCall.begin, TxCall.commit, TxCall.begin]).1.texts.count sqlROLLBACK = 0) := by
  refine ⟨by unfold someCommitSucceeded; decide, by decide, by decide⟩

/-! ### The order of the transaction states -/

theorem TransactionStates_t.toNat_injective (a b : TransactionStates_t)
    (h : a.toNat = b.toNat) : a = b := by
  cases a <;> cases b <;> simp [TransactionStates_t.toNat] at h ⊢

theorem DBTransaction.call_forward (db : Database) (t : DBTransaction) (c : TxCall)
    (h : ¬ (c = TxCall.begin ∧ t.state = .STATE_COMMIT)) :
    t.state.toNat ≤ (t.call db c).2.1.state.toNat := by
  obtain ⟨s⟩ := t
  cases c <;> cases s <;>
    simp [DBTransaction.call, DBTransaction.begin, DBTransaction.commit,
      TransactionStates_t.toNat] at h ⊢

theorem DBTransaction.run_forward (cs : List TxCall) :
    ∀ (db : Database) (t : DBTransaction),
      (∀ st ∈ (DBTransaction.run db t cs).2.2,
        ¬ (st.call = TxCall.begin ∧ st.before = .STATE_COMMIT)) →
      (∀ st ∈ (DBTransaction.run db t cs).2.2, st.before.toNat ≤ st.after.toNat) ∧
      List.Pairwise (fun a b : TransactionStates_t => a.toNat ≤ b.toNat)
        (t.state :: (DBTransaction.run db t cs).2.2.map TxStep.after) := by
  induction cs with
  | nil => intro db t _; simp [DBTransaction.run]
  | cons c rest ih =>
    intro db t h
    simp only [DBTransaction.run] at h ⊢
    have h0 : t.state.toNat ≤ (t.call db c).2.1.state.toNat :=
      DBTransaction.call_forward db t c (h _ (List.mem_cons_self _ _))
    obtain ⟨h1, h2⟩ := ih (t.call db c).1 (t.call db c).2.1
      (fun st hst => h st (List.mem_cons_of_mem _ hst))
    refine ⟨?_, ?_⟩
    · intro st hst
      rcases List.mem_cons.1 hst with e | e
      · rw [e]; exact h0
      · exact h1 st e
    · simp only [List.map_cons]
      refine List.Pairwise.cons ?_ h2
      intro x hx
      rcases List.mem_cons.1 hx with e | e
      · rw [e]; exact h0
      · exact le_trans h0 ((List.pairwise_cons.1 h2).1 x e)

/-- C10, as amended. `begin()` made in state Committed moves the state back to
Started; apart from that the state only moves forward along NotStarted,
Started, Committed: for every sequence of `begin()` and `commit()` calls in
which `begin()` is never called in state Committed, no call moves the state
back, every later state of the trace is at or after every earlier one, and a
state that was left is never entered again. -/
theorem DBTransaction.states_move_forward (db : Database) (cs : List TxCall)
    (h : ∀ st ∈ (DBTransaction.run db DBTransaction.new cs).2.2,
      ¬ (st.call = TxCall.begin ∧ st.before = .STATE_COMMIT)) :
    (∀ st ∈ (DBTransaction.run db DBTransaction.new cs).2.2,
      st.before.toNat ≤ st.after.toNat) ∧
    List.Pairwise (fun a b : TransactionStates_t => a.toNat ≤ b.toNat)
      (DBTransaction.trace db cs) ∧
    (∀ (l1 l2 l3 : List TransactionStates_t) (a b : TransactionStates_t),
      DBTransaction.trace db cs = l1 ++ (a :: (l2 ++ (b :: l3))) → a = b →
      ∀ c ∈ l2, c = a) := by
  obtain ⟨h1, h2⟩ := DBTransaction.run_forward cs db DBTransaction.new h
  have h3 : List.Pairwise (fun a b : TransactionStates_t => a.toNat ≤ b.toNat)
      (DBTransaction.trace db cs) := h2
  refine ⟨h1, h3, ?_⟩
  intro l1 l2 l3 a b htr hab c hc
  rw [htr] at h3
  have h4 := (List.pairwise_append.1 h3).2.1
  have h5 := List.pairwise_cons.1 h4
  have hac : a.toNat ≤ c.toNat := h5.1 c (List.mem_append_left _ hc)
  have h6 := (List.pairwise_append.1 h5.2).2.2
  have hcb : c.toNat ≤ b.toNat := h6 c hc b (List.mem_cons_self _ _)
  apply TransactionStates_t.toNat_injective
  rw [← hab] at hcb
  exact le_antisymm hcb hac

/-- The calls `begin(); commit(); commit();`: the state goes NotStarted,
Started, Committed, Committed. -/
theorem DBTransaction.states_move_forward_witness :
    (∀ st ∈ (DBTransaction.run (Database.fresh 64 alwaysOk) DBTransaction.new
        [TxCall.begin, TxCall.commit, TxCall.commit]).2.2,
      ¬ (st.call = TxCall.begin ∧ st.before = .STATE_COMMIT)) ∧
    (∀ st ∈ (DBTransaction.run (Database.fresh 64 alwaysOk) DBTransaction.new
        [TxCall.begin, TxCall.commit, TxCall.commit]).2.2,
      st.before.toNat ≤ st.after.toNat) ∧
    List.Pairwise (fun a b : TransactionStates_t => a.toNat ≤ b.toNat)
      (DBTransaction.trace (Database.fresh 64 alwaysOk)
        [TxCall.begin, TxCall.commit, TxCall.commit]) ∧
    (∀ (l1 l2 l3 : List TransactionStates_t) (a b : TransactionStates_t),
      DBTransaction.trace (Database.fresh 64 alwaysOk)
        [TxCall.begin, TxCall.commit, TxCall.commit] = l1 ++ (a :: (l2 ++ (b :: l3))) →
      a = b → ∀ c ∈ l2, c = a) :=
  ⟨by decide,
    DBTransaction.states_move_forward (Database.fresh 64 alwaysOk)
      [TxCall.begin, TxCall.commit, TxCall.commit] (by decide)⟩

/-- C10 fails as stated: in `begin(); commit(); begin();` the third call finds
the state Committed and leaves it Started, so the trace is NotStarted,
Started, Committed, Started: the state moved back and re-entered Started,
which it had left. -/
theorem DBTransaction.begin_reopens_committed :
    DBTransaction.trace (Database.fresh 64 alwaysOk)
        [TxCall.begin, TxCall.commit, TxCall.begin]
      = [.STATE_NO_START, .STATE_START, .STATE_COMMIT, .STATE_START] ∧
    (DBTransaction.begin (Database.fresh 64 alwaysOk) { state := .STATE_COMMIT }).2.1.state
      = .STATE_START ∧
    ¬ List.Pairwise (fun a b : TransactionStates_t => a.toNat ≤ b.toNat)
      (DBTransaction.trace (Database.fresh 64 alwaysOk)
        [TxCall.begin, TxCall.commit, TxCall.begin]) := by
  refine ⟨by decide, by decide, by decide⟩

/-! ### Cursors -/

/-- The SQLite adapter, for comparison: when the first `sqlite3_step` returns
`SQLITE_ROW` or `SQLITE_DONE`, `storeQuery` is absent exactly when it was
`SQLITE_DONE`, and a result it returns has `hasNext() = true`. -/
theorem DatabaseSQLite.storeQuery_absent_iff (db : DatabaseSQLite) (query : Str)
    (hrc : (sqlite3_step (db.handle.prepare_v2 query).2).1 = SQLITE_ROW ∨
      (sqlite3_step (db.handle.prepare_v2 query).2).1 = SQLITE_DONE) :
    (DatabaseSQLite.storeQuery db query = none ↔
      (sqlite3_step (db.handle.prepare_v2 query).2).1 = SQLITE_DONE) ∧
    (∀ r, DatabaseSQLite.storeQuery db query = some r → r.hasNext = true) := by
  have hne : SQLITE_ROW ≠ SQLITE_DONE := by decide
  have h1 : SQLITE_ROW ≠ SQLITE_OK := by decide
  have h2 : SQLITE_DONE ≠ SQLITE_OK := by decide
  rcases hrc with h | h
  · simp [DatabaseSQLite.storeQuery, SQLiteDBResult.hasNext, h, hne, h1]
  · simp [DatabaseSQLite.storeQuery, SQLiteDBResult.hasNext, h, hne.symm, h2]

/-- C8, evaluated on the ODBC adapter. `storeQuery` is absent only when the
database is not connected or a native call fails, whatever the rows; on the
connected database `odbcNoRows`, whose driver executes `SELECT 1 WHERE 0`
successfully with zero rows, it returns a result, with `hasNext() = true`
although no row was fetched. -/
theorem DatabaseODBC.storeQuery_present_without_rows :
    (∀ (db : DatabaseODBC) (query : Str),
      DatabaseODBC.storeQuery db query = none ↔
        (db.m_connected = false ∨ RETURN_SUCCESS db.m_handle.allocStmt = false ∨
          RETURN_SUCCESS
            (db.m_handle.execDirect (query.filter (fun c => c != chBackquote))).1 = false)) ∧
    odbcNoRows.m_connected = true ∧
    (odbcNoRows.m_handle.execDirect selectNothing).2.rows = [] ∧
    DatabaseODBC.storeQuery odbcNoRows selectNothing
      = some { m_handle := { rows := [] }, m_rowAvailable := false } ∧
    (ODBCDBResult.hasNext { m_handle := { rows := [] }, m_rowAvailable := false }) = true := by
  refine ⟨?_, rfl, rfl, rfl, rfl⟩
  intro db query
  simp only [DatabaseODBC.storeQuery, ODBCDBResult.new, ODBCDBResult.hasNext]
  cases db.m_connected <;> cases RETURN_SUCCESS db.m_handle.allocStmt <;>
    cases RETURN_SUCCESS
      (db.m_handle.execDirect (query.filter (fun c => c != chBackquote))).1 <;> simp

theorem ODBCDBResult.nexts_eq (n : Nat) :
    ∀ r : ODBCDBResult, r.nexts n = List.replicate n (!r.m_rowAvailable) := by
  induction n with
  | zero => intro r; rfl
  | succ m ih =>
    intro r
    simp [ODBCDBResult.nexts, ih, ODBCDBResult.next, List.replicate_succ]

/-- C9, evaluated on the ODBC cursor. Whatever the statement handle, every one
of `n` successive `next()` calls on the `ODBCDBResult` built on it returns
true; so on a result with no rows at all `next()` never returns false. -/
theorem ODBCDBResult.next_never_false (stmt : SQLHSTMT) (n : Nat) :
    (ODBCDBResult.new stmt).nexts n = List.replicate n true ∧
    (ODBCDBResult.new { rows := [] }).nexts 3 = [true, true, true] := by
  refine ⟨?_, by decide⟩
  rw [ODBCDBResult.nexts_eq]
  rfl

/-! ### The SQLite blob literal -/

set_option maxRecDepth 100000 in
theorem sprintf_02x_byte : ∀ v : Nat, v < 256 →
    sprintf_02x v = [lowerHexDigits.getD (v / 16) '0', lowerHexDigits.getD (v % 16) '0'] := by
  decide

theorem hexValue_digit : ∀ d : Nat, d < 16 →
    hexValue (lowerHexDigits.getD d '0') = some d := by
  decide

theorem DatabaseSQLite.escapeBlobLoop_eq (s : Str) :
    ∀ (n : Nat) (buf : Str),
      DatabaseSQLite.escapeBlobLoop s n buf
        = buf ++ (s.take n).flatMap (fun c => sprintf_02x (toUInt8 c)) := by
  induction s with
  | nil =>
    intro n buf
    cases n <;> simp [DatabaseSQLite.escapeBlobLoop]
  | cons c rest ih =>
    intro n buf
    cases n with
    | zero => simp [DatabaseSQLite.escapeBlobLoop]
    | succ m => simp [DatabaseSQLite.escapeBlobLoop, ih, List.flatMap_cons]

theorem sprintf_02x_eq_hexPair (c : Char) (h : c.toNat < 256) :
    sprintf_02x (toUInt8 c) = hexPair c := by
  unfold toUInt8 hexPair
  rw [Nat.mod_eq_of_lt h]
  exact sprintf_02x_byte c.toNat h

theorem flatMap_sprintf_eq_hexPair (b : Str) (h : ∀ c ∈ b, c.toNat < 256) :
    b.flatMap (fun c => sprintf_02x (toUInt8 c)) = b.flatMap hexPair := by
  induction b with
  | nil => rfl
  | cons c rest ih =>
    rw [List.flatMap_cons, List.flatMap_cons,
      sprintf_02x_eq_hexPair c (h c (List.mem_cons_self _ _)),
      ih (fun x hx => h x (List.mem_cons_of_mem _ hx))]

theorem hexPair_flatMap_length (b : Str) : (b.flatMap hexPair).length = 2 * b.length := by
  induction b with
  | nil => rfl
  | cons c rest ih =>
    rw [List.flatMap_cons, List.length_append, ih]
    simp [hexPair]
    omega

theorem hexDecode_hexPair (b : Str) (h : ∀ c ∈ b, c.toNat < 256) :
    hexDecode (b.flatMap hexPair) = some b := by
  induction b with
  | nil => rfl
  | cons c rest ih =>
    have hc : c.toNat < 256 := h c (List.mem_cons_self _ _)
    have h1 : c.toNat / 16 < 16 := by omega
    have h2 : c.toNat % 16 < 16 := Nat.mod_lt _ (by decide)
    rw [List.flatMap_cons]
    simp only [hexPair, List.cons_append, List.nil_append, hexDecode]
    rw [hexValue_digit _ h1, hexValue_digit _ h2]
    have e : ([] : Str).append (rest.flatMap hexPair) = rest.flatMap hexPair := rfl
    rw [e, ih (fun x hx => h x (List.mem_cons_of_mem _ hx))]
    simp only [Option.some.injEq, List.cons.injEq, and_true]
    rw [Nat.div_add_mod, Char.ofNat_toNat]

/-- C11. For the SQLite adapter and every byte sequence `b` (every element a
byte value, below 256): `escapeBlob(b, n)` with `n` the length of `b` is `x`,
a single quote, two lower-case hexadecimal digits per byte with the high
nibble first, and a single quote; its length is `2n + 3` and decoding the
digits recovers `b`. -/
theorem DatabaseSQLite.escapeBlob_hex (b : Str) (h : ∀ c ∈ b, c.toNat < 256) :
    DatabaseSQLite.escapeBlob b b.length = blobLiteral b ∧
    (DatabaseSQLite.escapeBlob b b.length).length = 2 * b.length + 3 ∧
    blobDecode (DatabaseSQLite.escapeBlob b b.length) = some b := by
  have he : DatabaseSQLite.escapeBlob b b.length = blobLiteral b := by
    unfold DatabaseSQLite.escapeBlob blobLiteral
    rw [DatabaseSQLite.escapeBlobLoop_eq, List.take_length, flatMap_sprintf_eq_hexPair b h]
  refine ⟨he, ?_, ?_⟩
  · rw [he]
    unfold blobLiteral
    simp only [List.length_append, hexPair_flatMap_length, List.length_cons, List.length_nil]
    omega
  · rw [he]
    unfold blobLiteral
    simp only [List.cons_append, List.nil_append, blobDecode]
    rw [List.getLast?_concat, List.dropLast_concat]
    simp [hexDecode_hexPair b h]

/-- The three bytes 0, 175 and 255 give the literal with the digits
`00afff`. -/
theorem DatabaseSQLite.escapeBlob_hex_witness :
    (∀ c ∈ [Char.ofNat 0, Char.ofNat 175, Char.ofNat 255], c.toNat < 256) ∧
    DatabaseSQLite.escapeBlob [Char.ofNat 0, Char.ofNat 175, Char.ofNat 255] 3
      = ['x', chQuote, '0', '0', 'a', 'f', 'f', 'f', chQuote] ∧
    DatabaseSQLite.escapeBlob [Char.ofNat 0, Char.ofNat 175, Char.ofNat 255] 3
      = blobLiteral [Char.ofNat 0, Char.ofNat 175, Char.ofNat 255] ∧
    (DatabaseSQLite.escapeBlob [Char.ofNat 0, Char.ofNat 175, Char.ofNat 255] 3).length
      = 2 * 3 + 3 ∧
    blobDecode (DatabaseSQLite.escapeBlob [Char.ofNat 0, Char.ofNat 175, Char.ofNat 255] 3)
      = some [Char.ofNat 0, Char.ofNat 175, Char.ofNat 255] :=
  ⟨by decide, by decide,
    DatabaseSQLite.escapeBlob_hex [Char.ofNat 0, Char.ofNat 175, Char.ofNat 255] (by decide)⟩

/-! ### `getNumber` -/

/-- A value the requested type can represent comes back unchanged. -/
theorem DBResult.getNumber_of_represents (A : IntType) (v : Int) (hb : 0 < A.bits)
    (h : A.represents v) : DBResult.getNumber A v = v := by
  unfold DBResult.getNumber DBResult.getNumberTry static_cast
  unfold IntType.represents at h
  have hp : (2 : Int) ^ A.bits = 2 * (2 : Int) ^ (A.bits - 1) := by
    conv_lhs => rw [show A.bits = (A.bits - 1) + 1 by omega]
    rw [pow_succ]
    ring
  cases hs : A.isSigned with
  | true =>
    rw [hs] at h
    simp only [if_true] at h ⊢
    rw [Int.emod_eq_of_lt (by omega) (by omega)]
    omega
  | false =>
    rw [hs] at h
    simp only [Bool.false_eq_true, if_false] at h ⊢
    exact Int.emod_eq_of_lt h.1 h.2

/-- C12, evaluated at `getNumber<uint32_t>` on the stored value -1, at
`getNumber<uint8_t>` on 257 and at `getNumber<int32_t>` on 2147483648: none of
the three values fits the requested type, and the results are 4294967295, 1
and -2147483648, not 0. -/
theorem DBResult.getNumber_wraps :
    (¬ IntType.uint32.represents (-1) ∧ DBResult.getNumber IntType.uint32 (-1) = 4294967295) ∧
    (¬ IntType.uint8.represents 257 ∧ DBResult.getNumber IntType.uint8 257 = 1) ∧
    (¬ IntType.int32.represents 2147483648 ∧
      DBResult.getNumber IntType.int32 2147483648 = -2147483648) := by
  refine ⟨⟨?_, ?_⟩, ⟨?_, ?_⟩, ⟨?_, ?_⟩⟩ <;>
    simp [IntType.represents, IntType.uint32, IntType.uint8, IntType.int32,
      DBResult.getNumber, DBResult.getNumberTry, static_cast]

/-! ### The connected flag -/

/-- The ODBC adapter, for comparison: connected exactly when all five native
calls of the constructor succeeded. -/
theorem DatabaseODBC.connect_new_iff (native : OdbcNative) :
    (DatabaseODBC.new native).connect = true ↔
      (RETURN_SUCCESS native.allocEnv = true ∧ RETURN_SUCCESS native.setEnvAttr = true ∧
        RETURN_SUCCESS native.allocDbc = true ∧ RETURN_SUCCESS native.setConnectAttr = true ∧
        RETURN_SUCCESS native.sqlConnect = true) := by
  unfold DatabaseODBC.new DatabaseODBC.connect
  cases RETURN_SUCCESS native.allocEnv <;> cases RETURN_SUCCESS native.setEnvAttr <;>
    cases RETURN_SUCCESS native.allocDbc <;> cases RETURN_SUCCESS native.setConnectAttr <;>
    cases RETURN_SUCCESS native.sqlConnect <;> simp

/-- C13, evaluated on the SQLite adapter. Whatever `sqlite3_open` returns,
`connect()` is true after construction; in particular when it returns
`SQLITE_CANTOPEN`, which is not `SQLITE_OK`, `connect()` returns true. -/
theorem DatabaseSQLite.connect_true_after_failed_open :
    (∀ (before : Bool) (opened : Int × sqlite3),
      (DatabaseSQLite.new before opened).connect = true) ∧
    SQLITE_CANTOPEN ≠ SQLITE_OK ∧
    (DatabaseSQLite.new false (SQLITE_CANTOPEN, sqlite3.unopened)).connect = true := by
  refine ⟨?_, by decide, rfl⟩
  intro before opened
  rfl

/-! ### Access to the native handle from several threads -/

/-- C14, evaluated on the ODBC adapter with two threads that each call
`executeQuery`: after thread 0 and then thread 1 have made one step, both are
inside a native call on the shared handle, and the lock was never taken. -/
theorem DatabaseODBC.executeQuery_threads_overlap :
    LockStep.acquire ∉ DatabaseODBC.executeQuerySteps ∧
    LockStep.acquire ∉ DatabaseODBC.storeQuerySteps ∧
    (((Shared.start twoOdbcQueries).run [0, 1]).threads 0).inNative = true ∧
    (((Shared.start twoOdbcQueries).run [0, 1]).threads 1).inNative = true ∧
    ((Shared.start twoOdbcQueries).run [0, 1]).databaseLock.owner = none ∧
    ((Shared.start twoOdbcQueries).run [0, 1]).overlap := by
  refine ⟨by decide, by decide, by decide, by decide, by decide, 0, 1, by decide, ?_, ?_⟩ <;>
    decide

theorem Shared.lockInv_advance (s : Shared) (t : Nat) (lock : RecursiveMutex)
    (next : ThreadState) (h : s.lockInv)
    (hother : ∀ u, u ≠ t →
      (if lock.owner = some u then lock.depth else 0) = s.held u)
    (hself : lockGuarded (if lock.owner = some t then lock.depth else 0) next.inNative next.todo ∧
      (next.inNative = true → 0 < (if lock.owner = some t then lock.depth else 0))) :
    (s.advance t lock next).lockInv := by
  intro u
  by_cases hu : u = t
  · subst hu
    simpa [Shared.advance, Shared.held] using hself
  · have h1 := h u
    have h2 := hother u hu
    simp only [Shared.advance, Shared.held, if_neg hu] at h2 ⊢
    rw [h2]
    exact h1

theorem Shared.lockInv_step (s : Shared) (t : Nat) (h : s.lockInv) : (s.step t).lockInv := by
  obtain ⟨hg, hn⟩ := h t
  unfold Shared.step
  cases htodo : (s.threads t).todo with
  | nil => exact h
  | cons a rest =>
    rw [htodo] at hg
    cases a with
    | acquire =>
      simp only [lockGuarded] at hg
      cases ho : s.databaseLock.owner with
      | none =>
        have hz : s.held t = 0 := by simp [Shared.held, ho]
        simp only
        refine Shared.lockInv_advance s t _ _ h ?_ ?_
        · intro u hu
          have : ¬ (t = u) := fun e => hu e.symm
          simp [Shared.held, ho, this]
        · rw [hz] at hg
          simp only [if_true]
          exact ⟨hg, fun _ => Nat.one_pos⟩
      | some o =>
        simp only
        by_cases hot : o = t
        · subst hot
          have hz : s.held o = s.databaseLock.depth := by simp [Shared.held, ho]
          rw [if_pos rfl]
          refine Shared.lockInv_advance s o _ _ h ?_ ?_
          · intro u hu
            have : ¬ (o = u) := fun e => hu e.symm
            simp [Shared.held, ho, this]
          · rw [hz] at hg
            simp only [if_true]
            exact ⟨hg, fun _ => Nat.succ_pos _⟩
        · rw [if_neg hot]
          exact h
    | release =>
      simp only [lockGuarded] at hg
      obtain ⟨hpos, hin, hrest⟩ := hg
      have hown : s.databaseLock.owner = some t := by
        by_contra hc
        simp [Shared.held, hc] at hpos
      have hz : s.held t = s.databaseLock.depth := by simp [Shared.held, hown]
      rw [hz] at hpos hin hrest
      simp only [hown, if_true]
      by_cases hd : s.databaseLock.depth ≤ 1
      · rw [if_pos hd]
        have hd1 : s.databaseLock.depth = 1 := by omega
        refine Shared.lockInv_advance s t _ _ h ?_ ?_
        · intro u hu
          have : ¬ (t = u) := fun e => hu e.symm
          simp [Shared.held, hown, this]
        · rw [hd1] at hrest hin
          simp only [reduceCtorEq, if_false]
          refine ⟨hrest, fun hi => ?_⟩
          have := hin hi
          omega
      · rw [if_neg hd]
        refine Shared.lockInv_advance s t _ _ h ?_ ?_
        · intro u hu
          have : ¬ (t = u) := fun e => hu e.symm
          simp [Shared.held, hown, this]
        · simp only [if_true]
          exact ⟨hrest, fun _ => by omega⟩
    | nativeEnter =>
      simp only [lockGuarded] at hg
      refine Shared.lockInv_advance s t _ _ h (fun u _ => rfl) ?_
      exact ⟨hg.2, fun _ => hg.1⟩
    | nativeLeave =>
      simp only [lockGuarded] at hg
      refine Shared.lockInv_advance s t _ _ h (fun u _ => rfl) ?_
      exact ⟨hg, fun hi => by simp at hi⟩

theorem Shared.lockInv_run (schedule : List Nat) :
    ∀ s : Shared, s.lockInv → (s.run schedule).lockInv := by
  induction schedule with
  | nil => intro s h; exact h
  | cons t rest ih => intro s h; exact ih _ (Shared.lockInv_step s t h)

theorem Shared.lockInv_not_overlap (s : Shared) (h : s.lockInv) : ¬ s.overlap := by
  rintro ⟨t, u, hne, ht, hu⟩
  have h1 := (h t).2 ht
  have h2 := (h u).2 hu
  unfold Shared.held at h1 h2
  by_cases e1 : s.databaseLock.owner = some t
  · by_cases e2 : s.databaseLock.owner = some u
    · rw [e1] at e2
      exact hne (Option.some.inj e2)
    · simp [e2] at h2
  · simp [e1] at h1

/-- The SQLite adapter, for comparison: whatever the number of threads, when
every thread makes only steps that keep native calls inside the lock, as
`DatabaseSQLite::executeQuery` and `DatabaseSQLite::storeQuery` do, no
schedule brings two threads into native calls at the same time. -/
theorem Shared.guarded_threads_never_overlap (programs : Nat → List LockStep)
    (h : ∀ t, lockGuarded 0 false (programs t)) (schedule : List Nat) :
    ¬ ((Shared.start programs).run schedule).overlap := by
  apply Shared.lockInv_not_overlap
  apply Shared.lockInv_run
  intro t
  have hz : (Shared.start programs).held t = 0 := by simp [Shared.held, Shared.start]
  rw [hz]
  exact ⟨h t, fun hi => by simp [Shared.start] at hi⟩

/-- The operations of the SQLite adapter keep their native calls inside the
lock, also when the calling thread already holds it. -/
theorem DatabaseSQLite.steps_lockGuarded (d : Nat) :
    lockGuarded d false DatabaseSQLite.executeQuerySteps ∧
    lockGuarded d false DatabaseSQLite.storeQuerySteps := by
  simp [DatabaseSQLite.executeQuerySteps, DatabaseSQLite.storeQuerySteps, nativeCall,
    lockGuarded]

/-- A thread that already holds `databaseLock` re-enters it in
`DatabaseSQLite::executeQuery` and runs to its end without blocking: after
its ten steps nothing is left to do and the lock is free. -/
theorem DatabaseSQLite.executeQuery_reenters :
    (((Shared.start nestedSqliteQuery).run (List.replicate 10 0)).threads 0).todo = [] ∧
    ((Shared.start nestedSqliteQuery).run (List.replicate 10 0)).databaseLock.owner = none := by
  decide

end TFS
